import Mathlib

/-!
Shallow embedding of the ETL service's record-reconciliation core
(src/app/api/routes.py) and its CSV export header (src/app/utils/output.py).

Python dict values reached through `.get(key)` are modelled as `Option String`
(absent key and `None` value are indistinguishable through `.get`); Python
truthiness of such a value (`if value:`) is `truthy` below.  Mutable state of
each merge pass is threaded through `MergeState`; Python `set`s are modelled as
lists used only through membership.
-/

namespace OrgsEtl

/-- Python truthiness of an optional string: `None` and the empty string are
falsy, every other string is truthy. -/
def truthy : Option String → Bool
  | none => false
  | some s => s ≠ ""

/-- Drop leading and trailing whitespace from a character list
(the effect of Python's `str.strip()` on the string's characters). -/
def stripChars (l : List Char) : List Char :=
  ((l.dropWhile Char.isWhitespace).reverse.dropWhile Char.isWhitespace).reverse

/-- `name.strip().upper()` — the normalization applied to names before
matching (routes.py lines 208, 299, 384, 413), implemented structurally over
the string's character list so it evaluates by kernel reduction. -/
def cleanName (s : String) : String :=
  String.mk ((stripChars s.data).map Char.toUpper)

/-- One transformed ABN record (keys produced by
`DataTransformer.transform_abn_data` that `merge_organization_records` reads). -/
structure AbnRecord where
  abn : Option String := none
  is_current : Option String := none
  replaced_from : Option String := none
  entity_status : Option String := none
  effective_from : Option String := none
  effective_to : Option String := none
  entity_type_code : Option String := none
  entity_type_description : Option String := none
  anc_status : Option String := none
  acnc_status_from : Option String := none
  acnc_status_to : Option String := none
  record_last_updated : Option String := none
  gst : Option String := none
  dgr : Option String := none
  main_trading_names : Option String := none
  other_trading_names : Option String := none
  main_business_physical_address : Option String := none
  tax_concession_endorsements : Option String := none
deriving DecidableEq

/-- One transformed ACNC record (keys produced by
`DataTransformer.transform_acnc_data` that the merge reads; the
`charity_wbsite` / `finacial_year_end` spellings are the transformer's). -/
structure AcncRecord where
  abn : Option String := none
  legal_name : Option String := none
  other_organisation_names : Option String := none
  charity_wbsite : Option String := none
  date_organisation_established : Option String := none
  registration_date : Option String := none
  charity_size : Option String := none
  number_of_responsible_persons : Option String := none
  finacial_year_end : Option String := none
  operates_in : Option String := none
  areas_of_interest : Option String := none
  address : Option String := none
deriving DecidableEq

/-- One transformed NSW association record
(`DataTransformer.transform_nsw_assoc_data`). -/
structure NSWRecord where
  name : Option String := none
  organisation_number : Option String := none
  organisation_type : Option String := none
  status : Option String := none
  date_registered : Option String := none
  date_removed : Option String := none
  registered_office_address : Option String := none
  organisation_id : Option String := none
deriving DecidableEq

/-- A merged (canonical) record: the 37 data fields of the dict built by
`merge_organization_records`, plus `sources` and `updated_at`. -/
structure MergedRecord where
  abn : Option String := none
  is_current : Option String := none
  replaced_from : Option String := none
  entity_status : Option String := none
  effective_from : Option String := none
  effective_to : Option String := none
  entity_type_code : Option String := none
  entity_type_description : Option String := none
  anc_status : Option String := none
  acnc_status_from : Option String := none
  acnc_status_to : Option String := none
  record_last_updated : Option String := none
  gst : Option String := none
  dgr : Option String := none
  main_trading_names : Option String := none
  other_trading_names : Option String := none
  main_business_physical_address : Option String := none
  tax_concession_endorsements : Option String := none
  legal_name : Option String := none
  other_organisation_names : Option String := none
  charity_website : Option String := none
  date_organisation_established : Option String := none
  registration_date : Option String := none
  charity_size : Option String := none
  number_of_responsible_persons : Option String := none
  financial_year_end : Option String := none
  operates_in : Option String := none
  areas_of_interest : Option String := none
  acnc_address : Option String := none
  nsw_organisation_number : Option String := none
  nsw_name : Option String := none
  nsw_organisation_type : Option String := none
  nsw_status : Option String := none
  nsw_date_registered : Option String := none
  nsw_date_removed : Option String := none
  nsw_registered_office_address : Option String := none
  nsw_organisation_id : Option String := none
  sources : List String := []
  updated_at : String := ""
deriving DecidableEq

/-- The running statistics dict of `merge_organization_records`
(routes.py lines 186-197). -/
structure MergeStats where
  total_abn_records : Nat := 0
  total_acnc_records : Nat := 0
  total_nsw_records : Nat := 0
  merged_records : Nat := 0
  abn_only : Nat := 0
  acnc_only : Nat := 0
  nsw_only : Nat := 0
  abn_acnc_matches : Nat := 0
  acnc_nsw_matches : Nat := 0
  all_source_matches : Nat := 0
deriving DecidableEq

/-- The mutable state threaded through the three merge passes: the output list,
the statistics, and the `processed_abns` / `processed_nsw_names` sets (modelled
as lists, used only through membership). -/
structure MergeState where
  merged : List MergedRecord := []
  stats : MergeStats := {}
  processed_abns : List String := []
  processed_nsw_names : List String := []
deriving DecidableEq

/-- `acnc_by_abn = {record['abn']: record for record in acnc_records if record.get('abn')}`
(routes.py line 201): later bindings overwrite earlier ones. -/
def acncByAbn (recs : List AcncRecord) : String → Option AcncRecord :=
  recs.foldl
    (fun m r =>
      if truthy r.abn then fun k => if some k = r.abn then some r else m k else m)
    (fun _ => none)

/-- `abn_by_abn` (routes.py line 200); built by the code but never consulted. -/
def abnByAbn (recs : List AbnRecord) : String → Option AbnRecord :=
  recs.foldl
    (fun m r =>
      if truthy r.abn then fun k => if some k = r.abn then some r else m k else m)
    (fun _ => none)

/-- `nsw_by_name` (routes.py lines 204-209): keyed by the cleaned name of every
NSW record with a truthy name; later bindings overwrite earlier ones. -/
def nswByName (recs : List NSWRecord) : String → Option NSWRecord :=
  recs.foldl
    (fun m r =>
      if truthy r.name then
        fun k => if k = cleanName (r.name.getD "") then some r else m k
      else m)
    (fun _ => none)

/-- The merged record seeded from an ABN record (routes.py lines 224-271):
ABN-namespace fields copied, everything else `None`, `sources = ['abn']`. -/
def seedFromAbn (r : AbnRecord) (now : String) : MergedRecord :=
  { abn := r.abn
    is_current := r.is_current
    replaced_from := r.replaced_from
    entity_status := r.entity_status
    effective_from := r.effective_from
    effective_to := r.effective_to
    entity_type_code := r.entity_type_code
    entity_type_description := r.entity_type_description
    anc_status := r.anc_status
    acnc_status_from := r.acnc_status_from
    acnc_status_to := r.acnc_status_to
    record_last_updated := r.record_last_updated
    gst := r.gst
    dgr := r.dgr
    main_trading_names := r.main_trading_names
    other_trading_names := r.other_trading_names
    main_business_physical_address := r.main_business_physical_address
    tax_concession_endorsements := r.tax_concession_endorsements
    sources := ["abn"]
    updated_at := now }

/-- The ACNC-field update plus `sources.append('acnc')`
(routes.py lines 279-292). -/
def mergeAcncInto (m : MergedRecord) (a : AcncRecord) : MergedRecord :=
  { m with
    legal_name := a.legal_name
    other_organisation_names := a.other_organisation_names
    charity_website := a.charity_wbsite
    date_organisation_established := a.date_organisation_established
    registration_date := a.registration_date
    charity_size := a.charity_size
    number_of_responsible_persons := a.number_of_responsible_persons
    financial_year_end := a.finacial_year_end
    operates_in := a.operates_in
    areas_of_interest := a.areas_of_interest
    acnc_address := a.address
    sources := m.sources ++ ["acnc"] }

/-- The NSW-field update plus `sources.append('nsw')`
(routes.py lines 302-312 and 387-397). -/
def mergeNswInto (m : MergedRecord) (n : NSWRecord) : MergedRecord :=
  { m with
    nsw_organisation_number := n.organisation_number
    nsw_name := n.name
    nsw_organisation_type := n.organisation_type
    nsw_status := n.status
    nsw_date_registered := n.date_registered
    nsw_date_removed := n.date_removed
    nsw_registered_office_address := n.registered_office_address
    nsw_organisation_id := n.organisation_id
    sources := m.sources ++ ["nsw"] }

/-- The merged record seeded from an ACNC-only record
(routes.py lines 332-379): `abn` copied, ACNC fields copied, the rest `None`,
`sources = ['acnc']`. -/
def seedFromAcnc (r : AcncRecord) (now : String) : MergedRecord :=
  { abn := r.abn
    legal_name := r.legal_name
    other_organisation_names := r.other_organisation_names
    charity_website := r.charity_wbsite
    date_organisation_established := r.date_organisation_established
    registration_date := r.registration_date
    charity_size := r.charity_size
    number_of_responsible_persons := r.number_of_responsible_persons
    financial_year_end := r.finacial_year_end
    operates_in := r.operates_in
    areas_of_interest := r.areas_of_interest
    acnc_address := r.address
    sources := ["acnc"]
    updated_at := now }

/-- The merged record seeded from an NSW-only record
(routes.py lines 418-465): NSW fields copied, everything else `None`
(including `abn`), `sources = ['nsw']`. -/
def seedFromNsw (r : NSWRecord) (now : String) : MergedRecord :=
  { nsw_organisation_number := r.organisation_number
    nsw_name := r.name
    nsw_organisation_type := r.organisation_type
    nsw_status := r.status
    nsw_date_registered := r.date_registered
    nsw_date_removed := r.date_removed
    nsw_registered_office_address := r.registered_office_address
    nsw_organisation_id := r.organisation_id
    sources := ["nsw"]
    updated_at := now }

/-- One iteration of the ABN-seeded pass (routes.py lines 216-323).
Skips records whose `abn` is falsy or already processed; otherwise records the
abn, seeds, merges ACNC by abn, then NSW by the ACNC legal name (note: this
pass checks only membership in `nsw_by_name`, never `processed_nsw_names`),
and classifies the record for the statistics. -/
def processAbnRecord (acncBy : String → Option AcncRecord)
    (nswBy : String → Option NSWRecord) (now : String)
    (st : MergeState) (r : AbnRecord) : MergeState :=
  if truthy r.abn = false ∨ r.abn.getD "" ∈ st.processed_abns then st
  else
    let abn := r.abn.getD ""
    let st1 := { st with processed_abns := st.processed_abns ++ [abn] }
    let m0 := seedFromAbn r now
    match acncBy abn with
    | none =>
        -- has_acnc_match = False, has_nsw_match = False: abn_only += 1
        { st1 with
          merged := st1.merged ++ [m0]
          stats := { st1.stats with abn_only := st1.stats.abn_only + 1 } }
    | some a =>
        let m1 := mergeAcncInto m0 a
        let s1 := { st1.stats with abn_acnc_matches := st1.stats.abn_acnc_matches + 1 }
        if truthy a.legal_name then
          let cl := cleanName (a.legal_name.getD "")
          match nswBy cl with
          | some n =>
              -- has_acnc_match and has_nsw_match: all_source_matches += 1
              { st1 with
                merged := st1.merged ++ [mergeNswInto m1 n]
                processed_nsw_names := st1.processed_nsw_names ++ [cl]
                stats := { s1 with
                  acnc_nsw_matches := s1.acnc_nsw_matches + 1
                  all_source_matches := s1.all_source_matches + 1 } }
          | none => { st1 with merged := st1.merged ++ [m1], stats := s1 }
        else { st1 with merged := st1.merged ++ [m1], stats := s1 }

/-- One iteration of the ACNC-only pass (routes.py lines 326-405).
Skips records whose `abn` is falsy or already processed; note it does NOT add
the abn to `processed_abns`.  Tries the NSW match only when the record's own
`legal_name` is truthy, and there checks both `nsw_by_name` membership and
`processed_nsw_names`. -/
def processAcncRecord (nswBy : String → Option NSWRecord) (now : String)
    (st : MergeState) (r : AcncRecord) : MergeState :=
  if truthy r.abn = false ∨ r.abn.getD "" ∈ st.processed_abns then st
  else
    let m0 := seedFromAcnc r now
    if truthy r.legal_name then
      let cl := cleanName (r.legal_name.getD "")
      match nswBy cl with
      | some n =>
          if cl ∈ st.processed_nsw_names then
            { st with
              merged := st.merged ++ [m0]
              stats := { st.stats with acnc_only := st.stats.acnc_only + 1 } }
          else
            { st with
              merged := st.merged ++ [mergeNswInto m0 n]
              processed_nsw_names := st.processed_nsw_names ++ [cl]
              stats := { st.stats with acnc_nsw_matches := st.stats.acnc_nsw_matches + 1 } }
      | none =>
          { st with
            merged := st.merged ++ [m0]
            stats := { st.stats with acnc_only := st.stats.acnc_only + 1 } }
    else
      { st with
        merged := st.merged ++ [m0]
        stats := { st.stats with acnc_only := st.stats.acnc_only + 1 } }

/-- One iteration of the NSW-only pass (routes.py lines 408-468).
Skips records whose name is falsy or whose cleaned name is in
`processed_nsw_names`; note it does NOT add the name to the set. -/
def processNswRecord (now : String) (st : MergeState) (r : NSWRecord) : MergeState :=
  if truthy r.name = false then st
  else
    let cl := cleanName (r.name.getD "")
    if cl ∈ st.processed_nsw_names then st
    else
      { st with
        merged := st.merged ++ [seedFromNsw r now]
        stats := { st.stats with nsw_only := st.stats.nsw_only + 1 } }

/-- State after the ABN-seeded pass of `merge_organization_records`. -/
def mergeSt1 (abnRecs : List AbnRecord) (acncRecs : List AcncRecord)
    (nswRecs : List NSWRecord) (now : String) : MergeState :=
  abnRecs.foldl (processAbnRecord (acncByAbn acncRecs) (nswByName nswRecs) now)
    { stats := { total_abn_records := abnRecs.length
                 total_acnc_records := acncRecs.length
                 total_nsw_records := nswRecs.length } }

/-- State after the ACNC-only pass. -/
def mergeSt2 (abnRecs : List AbnRecord) (acncRecs : List AcncRecord)
    (nswRecs : List NSWRecord) (now : String) : MergeState :=
  acncRecs.foldl (processAcncRecord (nswByName nswRecs) now)
    (mergeSt1 abnRecs acncRecs nswRecs now)

/-- State after the NSW-only pass. -/
def mergeSt3 (abnRecs : List AbnRecord) (acncRecs : List AcncRecord)
    (nswRecs : List NSWRecord) (now : String) : MergeState :=
  nswRecs.foldl (processNswRecord now) (mergeSt2 abnRecs acncRecs nswRecs now)

/-- `merge_organization_records` (routes.py lines 173-471): three passes over
the per-source record lists, then `stats['merged_records'] = len(merged_records)`.
The per-record `datetime.now().isoformat()` timestamp is abstracted into the
`now` argument (the claims exclude it). -/
def mergeOrganizationRecords (abnRecs : List AbnRecord) (acncRecs : List AcncRecord)
    (nswRecs : List NSWRecord) (now : String) : List MergedRecord × MergeStats :=
  let st := mergeSt3 abnRecs acncRecs nswRecs now
  (st.merged, { st.stats with merged_records := st.merged.length })

/-! ### CSV export (src/app/utils/output.py) -/

/-- The `fieldnames` list of `write_merged_records_to_csv`
(output.py lines 13-24). -/
def csvFieldnames : List String :=
  ["abn", "is_current", "replaced_from", "entity_status", "effective_from", "effective_to",
   "entity_type_code", "entity_type_description", "anc_status", "acnc_status_from", "acnc_status_to",
   "record_last_updated", "gst", "dgr", "main_trading_names", "other_trading_names",
   "main_business_physical_address", "tax_concession_endorsements",
   "legal_name", "other_organisation_names", "charity_website", "date_organisation_established",
   "registration_date", "charity_size", "number_of_responsible_persons", "financial_year_end",
   "operates_in", "areas_of_interest", "acnc_address",
   "nsw_organisation_number", "nsw_name", "nsw_organisation_type", "nsw_status",
   "nsw_date_registered", "nsw_date_removed", "nsw_registered_office_address", "nsw_organisation_id",
   "sources", "updated_at"]

/-- A cell value of the tabular export: most merged-record fields are optional
strings, `sources` is a string list, `updated_at` a string. -/
inductive CsvValue where
  | opt (v : Option String)
  | strs (v : List String)
  | str (v : String)
deriving DecidableEq

/-- The row `csv.DictWriter` writes for one merged record: the record's
fields in `fieldnames` order. -/
def mergedRecordRow (r : MergedRecord) : List CsvValue :=
  [.opt r.abn, .opt r.is_current, .opt r.replaced_from, .opt r.entity_status,
   .opt r.effective_from, .opt r.effective_to, .opt r.entity_type_code,
   .opt r.entity_type_description, .opt r.anc_status, .opt r.acnc_status_from,
   .opt r.acnc_status_to, .opt r.record_last_updated, .opt r.gst, .opt r.dgr,
   .opt r.main_trading_names, .opt r.other_trading_names,
   .opt r.main_business_physical_address, .opt r.tax_concession_endorsements,
   .opt r.legal_name, .opt r.other_organisation_names, .opt r.charity_website,
   .opt r.date_organisation_established, .opt r.registration_date, .opt r.charity_size,
   .opt r.number_of_responsible_persons, .opt r.financial_year_end, .opt r.operates_in,
   .opt r.areas_of_interest, .opt r.acnc_address, .opt r.nsw_organisation_number,
   .opt r.nsw_name, .opt r.nsw_organisation_type, .opt r.nsw_status,
   .opt r.nsw_date_registered, .opt r.nsw_date_removed,
   .opt r.nsw_registered_office_address, .opt r.nsw_organisation_id,
   .strs r.sources, .str r.updated_at]

/-- `write_merged_records_to_csv` (output.py lines 4-37): the file content as
(header row, one row per record). -/
def write_merged_records_to_csv (records : List MergedRecord) :
    List String × List (List CsvValue) :=
  (csvFieldnames, records.map mergedRecordRow)

/-! ### Extraction scheduling and result collection (routes.py lines 138-171
and 474-613) -/

/-- The records one extraction job contributes, tagged by source (in the code
the tag is the `source` string stored beside each future; the record shape of
a job's output is determined by that same source). -/
inductive ExtractedRecords where
  | abnR (records : List AbnRecord)
  | acncR (records : List AcncRecord)
  | nswR (records : List NSWRecord)
deriving DecidableEq

/-- One completed extraction future: its postcode and either its records or a
failure marker (the exception raised out of `future.result()`). -/
structure SyncJob where
  postcode : String
  outcome : Except Unit ExtractedRecords

/-- The per-postcode entry of `postcode_stats['by_postcode']`
(routes.py lines 531-534). -/
structure PostcodeCounts where
  abn : Nat := 0
  acnc : Nat := 0
  nsw : Nat := 0
  total : Nat := 0
deriving DecidableEq

/-- The mutable collection state of the result loop in `sync_all_sources`
(routes.py lines 504-558): the three per-source record accumulators, the
`by_postcode` dict and the `failed_postcodes` list. -/
structure CollectState where
  allAbn : List AbnRecord := []
  allAcnc : List AcncRecord := []
  allNsw : List NSWRecord := []
  byPostcode : String → Option PostcodeCounts := fun _ => none
  failed : List String := []

/-- One iteration of the `as_completed` loop (routes.py lines 525-558): on
success, initialize the postcode entry if absent, extend the matching
per-source accumulator, set that source's count and recompute `total`; on
failure, append the postcode to `failed_postcodes` unless already present. -/
def collectStep (st : CollectState) (j : SyncJob) : CollectState :=
  match j.outcome with
  | .error _ =>
      if j.postcode ∈ st.failed then st
      else { st with failed := st.failed ++ [j.postcode] }
  | .ok recs =>
      let init := match st.byPostcode j.postcode with
        | some c => c
        | none => {}
      let c := match recs with
        | .abnR rs => { init with abn := rs.length }
        | .acncR rs => { init with acnc := rs.length }
        | .nswR rs => { init with nsw := rs.length }
      let c2 := { c with total := c.abn + c.acnc + c.nsw }
      let st2 := match recs with
        | .abnR rs => { st with allAbn := st.allAbn ++ rs }
        | .acncR rs => { st with allAcnc := st.allAcnc ++ rs }
        | .nswR rs => { st with allNsw := st.allNsw ++ rs }
      { st2 with byPostcode := fun q => if q = j.postcode then some c2 else st.byPostcode q }

/-- Folding the collection loop over the completed futures in completion
order (the order is not guaranteed; theorems quantify over it). -/
def collectResults (jobs : List SyncJob) : CollectState :=
  jobs.foldl collectStep {}

/-- The test `p in by_postcode and by_postcode[p]['total'] > 0` of
routes.py line 563. -/
def postcodeProcessed (st : CollectState) (p : String) : Bool :=
  match st.byPostcode p with
  | some c => decide (0 < c.total)
  | none => false

/-- `processed_postcodes` (routes.py lines 561-564): the number of postcodes
present in `by_postcode` with a positive combined total. -/
def processedPostcodes (postcodes : List String) (st : CollectState) : Nat :=
  (postcodes.filter (postcodeProcessed st)).length

/-- Whether a job failed (its future raised). -/
def jobFailed (j : SyncJob) : Bool :=
  match j.outcome with
  | .error _ => true
  | .ok _ => false

/-- The (source, postcode) key of a successful job; sources are numbered
abn = 0, acnc = 1, nsw = 2. -/
def successKey (j : SyncJob) : Option (Nat × String) :=
  match j.outcome with
  | .ok (.abnR _) => some (0, j.postcode)
  | .ok (.acncR _) => some (1, j.postcode)
  | .ok (.nswR _) => some (2, j.postcode)
  | .error _ => none

/-- Keys of all successful jobs; the scheduler submits one job per
(source, postcode), so these are pairwise distinct. -/
def successKeys (jobs : List SyncJob) : List (Nat × String) :=
  jobs.filterMap successKey

/-- Records a successful abn job for postcode `p` contributes. -/
def abnContribution (p : String) (j : SyncJob) : Nat :=
  match j.outcome with
  | .ok (.abnR rs) => if j.postcode = p then rs.length else 0
  | _ => 0

/-- Records a successful acnc job for postcode `p` contributes. -/
def acncContribution (p : String) (j : SyncJob) : Nat :=
  match j.outcome with
  | .ok (.acncR rs) => if j.postcode = p then rs.length else 0
  | _ => 0

/-- Records a successful nsw job for postcode `p` contributes. -/
def nswContribution (p : String) (j : SyncJob) : Nat :=
  match j.outcome with
  | .ok (.nswR rs) => if j.postcode = p then rs.length else 0
  | _ => 0

/-- Total abn records successfully extracted for postcode `p`. -/
def abnTotal (jobs : List SyncJob) (p : String) : Nat :=
  (jobs.map (abnContribution p)).sum

/-- Total acnc records successfully extracted for postcode `p`. -/
def acncTotal (jobs : List SyncJob) (p : String) : Nat :=
  (jobs.map (acncContribution p)).sum

/-- Total nsw records successfully extracted for postcode `p`. -/
def nswTotal (jobs : List SyncJob) (p : String) : Nat :=
  (jobs.map (nswContribution p)).sum

/-- A postcode's combined record total across the three sources. -/
def combinedTotal (jobs : List SyncJob) (p : String) : Nat :=
  abnTotal jobs p + acncTotal jobs p + nswTotal jobs p

/-- Whether some abn job for `p` succeeded. -/
def hasAbnSuccess (jobs : List SyncJob) (p : String) : Bool :=
  jobs.any fun j =>
    match j.outcome with
    | .ok (.abnR _) => j.postcode = p
    | _ => false

/-- Whether some acnc job for `p` succeeded. -/
def hasAcncSuccess (jobs : List SyncJob) (p : String) : Bool :=
  jobs.any fun j =>
    match j.outcome with
    | .ok (.acncR _) => j.postcode = p
    | _ => false

/-- Whether some nsw job for `p` succeeded. -/
def hasNswSuccess (jobs : List SyncJob) (p : String) : Bool :=
  jobs.any fun j =>
    match j.outcome with
    | .ok (.nswR _) => j.postcode = p
    | _ => false

/-- Whether any job for `p` succeeded (exactly when `p` gets a
`by_postcode` entry). -/
def hasAnySuccess (jobs : List SyncJob) (p : String) : Bool :=
  jobs.any fun j =>
    match j.outcome with
    | .ok _ => j.postcode = p
    | .error _ => false

/-- The abn count stored for a postcode, reading an absent entry as 0. -/
def viewAbn : Option PostcodeCounts → Nat
  | some c => c.abn
  | none => 0

/-- The acnc count stored for a postcode, reading an absent entry as 0. -/
def viewAcnc : Option PostcodeCounts → Nat
  | some c => c.acnc
  | none => 0

/-- The nsw count stored for a postcode, reading an absent entry as 0. -/
def viewNsw : Option PostcodeCounts → Nat
  | some c => c.nsw
  | none => 0

/-- The combined total stored for a postcode, reading an absent entry as 0. -/
def viewTotal : Option PostcodeCounts → Nat
  | some c => c.total
  | none => 0

/-! ### The `sync_all_sources` route (routes.py lines 474-613) -/

/-- `str.upper()`, implemented structurally over the character list. -/
def pyUpper (s : String) : String := String.mk (s.data.map Char.toUpper)

/-- Lexicographic strict order on character lists by code point, as Python
compares strings. -/
def charListLt : List Char → List Char → Bool
  | [], [] => false
  | [], _ :: _ => true
  | _ :: _, [] => false
  | a :: as, b :: bs =>
      if a.toNat < b.toNat then true
      else if b.toNat < a.toNat then false
      else charListLt as bs

/-- Insert a string into a sorted list (ascending). -/
def insortString (x : String) : List String → List String
  | [] => [x]
  | y :: ys => if charListLt y.data x.data then y :: insortString x ys else x :: y :: ys

/-- `sorted(...)` over strings (load_postcodes_for_state returns
`sorted(data['postcodes'])`, routes.py line 133). -/
def sortStrings (l : List String) : List String := l.foldr insortString []

/-- The data carried by a successful (or cached) `sync_all_sources` response,
restricted to the parts the claims mention. -/
structure SyncPayload where
  state : String
  processed_postcodes : Nat
  failed_postcodes : List String
  merge_stats : MergeStats
  merged_records : List MergedRecord
deriving DecidableEq

/-- The outcome of one `sync_all_sources` call: a cached response, a 404
"no postcodes" error, a 400 "empty postcode list" error, or a fresh
successful response. -/
inductive SyncOutcome where
  | fromCache (payload : SyncPayload)
  | notFound (message : String)
  | badRequest (message : String)
  | success (payload : SyncPayload)
deriving DecidableEq

/-- The HTTP status of each outcome (routes.py lines 493, 499, 599, 606). -/
def statusCode : SyncOutcome → Nat
  | .fromCache _ => 200
  | .notFound _ => 404
  | .badRequest _ => 400
  | .success _ => 200

/-- The message of the `KeyError` that `load_postcodes_for_state` raises when
nothing is cached for the state (routes.py lines 130 and 136: the inner
KeyError text is wrapped once, picking up Python's quoting of the inner
message). -/
def noPostcodesMessage (stateUpper : String) : String :=
  "Error loading postcodes for " ++ stateUpper ++ ": 'No postcodes found for "
    ++ stateUpper ++ ". Please upload them first.'"

/-- `sync_all_sources` (routes.py lines 474-613).  `cachedSync` is
`cache.get('sync_all_{STATE}')`, `postcodesEntry` is the postcode list stored
under `postcodes:{STATE}` (absent-or-falsy modelled as `none`), and `jobs`
are the completed extraction futures in completion order.  The Supabase load
and response caching are external effects and not modelled. -/
def sync_all_sources (state : String) (cachedSync : Option SyncPayload)
    (postcodesEntry : Option (List String)) (jobs : List SyncJob)
    (now : String) : SyncOutcome :=
  let stateUpper := pyUpper state
  match cachedSync with
  | some d => .fromCache d
  | none =>
    match postcodesEntry with
    | none => .notFound (noPostcodesMessage stateUpper)
    | some pcs =>
      let postcodes := sortStrings pcs
      if postcodes.isEmpty then
        .badRequest ("No postcodes found for " ++ stateUpper)
      else
        let st := collectResults jobs
        let merged := mergeOrganizationRecords st.allAbn st.allAcnc st.allNsw now
        .success
          { state := stateUpper
            processed_postcodes := processedPostcodes postcodes st
            failed_postcodes := st.failed
            merge_stats := merged.2
            merged_records := merged.1 }

/-! ### `extract_data_for_postcode` (routes.py lines 138-171) -/

/-- A raw transformed record of any of the three sources. -/
abbrev RawRecord := Sum AbnRecord (Sum AcncRecord NSWRecord)

/-- `extract_data_for_postcode`: dispatches on the source name, runs the
matching extractor-plus-transformer (whose outcome, success or raised
exception, is the corresponding `Except` argument), raises `ValueError` on an
unknown source, and converts every raised exception into an empty list
(routes.py lines 150-171). -/
def extract_data_for_postcode (source state postcode : String)
    (nswResult : Except Unit (List NSWRecord))
    (acncResult : Except Unit (List AcncRecord))
    (abnResult : Except Unit (List AbnRecord)) : List RawRecord :=
  let body : Except Unit (List RawRecord) :=
    if source = "nsw" then
      nswResult.map fun rs => rs.map fun r => Sum.inr (Sum.inr r)
    else if source = "acnc" then
      acncResult.map fun rs => rs.map fun r => Sum.inr (Sum.inl r)
    else if source = "abn" then
      abnResult.map fun rs => rs.map Sum.inl
    else Except.error ()
  match body with
  | .ok records => records
  | .error _ => []

/-! ### Helper notions used by the claim statements -/

/-- The non-null primary identifiers of a list of canonical records. -/
def mergedAbns (l : List MergedRecord) : List String :=
  l.filterMap fun r => r.abn

/-- The normalized names of the tertiary-only canonical records (those whose
provenance is exactly the nsw source). -/
def nswOnlyNames (l : List MergedRecord) : List String :=
  (l.filter fun r => decide (r.sources = ["nsw"])).map fun r =>
    cleanName (r.nsw_name.getD "")

/-- `has_acnc_match` for an abn value, as the ABN-seeded pass computes it. -/
def abnHasAcncMatch (acncBy : String → Option AcncRecord) (abn : String) : Bool :=
  (acncBy abn).isSome

/-- `has_nsw_match` for an abn value, as the ABN-seeded pass computes it:
there is an acnc match whose truthy legal name, normalized, is a key of
`nsw_by_name`. -/
def abnHasNswMatch (acncBy : String → Option AcncRecord)
    (nswBy : String → Option NSWRecord) (abn : String) : Bool :=
  match acncBy abn with
  | some a => truthy a.legal_name && (nswBy (cleanName (a.legal_name.getD ""))).isSome
  | none => false

/-- The survival condition of the ACNC-only pass: truthy abn not yet
processed. -/
def survivesAcnc (processed : List String) (r : AcncRecord) : Bool :=
  truthy r.abn && decide (r.abn.getD "" ∉ processed)

/-- The survival condition of the NSW-only pass: truthy name whose normalized
form is not yet consumed. -/
def survivesNsw (consumed : List String) (r : NSWRecord) : Bool :=
  truthy r.name && decide (cleanName (r.name.getD "") ∉ consumed)

/-! ### Concrete inputs used by scenarios, counterexamples and witnesses -/

/-- Scenario A's primary record. -/
def abnRec1 : AbnRecord := { abn := some "1" }

/-- A second primary record. -/
def abnRec2 : AbnRecord := { abn := some "2" }

/-- Scenario A's secondary record. -/
def acncRec1X : AcncRecord := { abn := some "1", legal_name := some "X" }

/-- A second secondary record carrying the same legal name. -/
def acncRec2X : AcncRecord := { abn := some "2", legal_name := some "X" }

/-- A secondary record with an identifier but no legal name. -/
def acncRec1NoName : AcncRecord := { abn := some "1" }

/-- Scenario A's tertiary record. -/
def nswRecX : NSWRecord := { name := some "X" }

/-- The completed jobs of scenario C: two postcodes, three sources, exactly
one failed job (the acnc extraction for postcode 2000). -/
def scenarioJobs : List SyncJob :=
  [⟨"2000", .ok (.abnR [abnRec1])⟩,
   ⟨"2000", .error ()⟩,
   ⟨"2000", .ok (.nswR [])⟩,
   ⟨"2010", .ok (.abnR [])⟩,
   ⟨"2010", .ok (.acncR [acncRec1X])⟩,
   ⟨"2010", .ok (.nswR [nswRecX])⟩]

/-- The postcode batch of scenario C. -/
def scenarioPostcodes : List String := ["2000", "2010"]

/-! ## Theorems -/

/-- C6: merging primary `[{abn:"1"}]`, secondary `[{abn:"1", legal_name:"X"}]`
and tertiary `[{name:"X"}]` yields exactly one canonical record, with
provenance `["abn","acnc","nsw"]` and `all_source_matches = 1`. -/
theorem merge_scenario_A :
    (mergeOrganizationRecords [abnRec1] [acncRec1X] [nswRecX] "t").1.length = 1 ∧
    ((mergeOrganizationRecords [abnRec1] [acncRec1X] [nswRecX] "t").1.map fun r => r.sources)
      = [["abn", "acnc", "nsw"]] ∧
    (mergeOrganizationRecords [abnRec1] [acncRec1X] [nswRecX] "t").2.all_source_matches = 1 := by
  decide

/-- C8 counterexample: the export header does not have 38 columns — the
`fieldnames` list of `write_merged_records_to_csv` has 39 entries, so the
claim's "fixed 38-column header" is false (its own column list names 39). -/
theorem csv_header_not_38_columns :
    ¬ ((write_merged_records_to_csv []).1.length = 38) := by decide

/-- C8 amended: for every record list the export header is the fixed
39-column sequence, in exactly the listed order. -/
theorem csv_header_39_columns :
    ∀ records : List MergedRecord,
      (write_merged_records_to_csv records).1 =
        ["abn", "is_current", "replaced_from", "entity_status", "effective_from",
         "effective_to", "entity_type_code", "entity_type_description", "anc_status",
         "acnc_status_from", "acnc_status_to", "record_last_updated", "gst", "dgr",
         "main_trading_names", "other_trading_names", "main_business_physical_address",
         "tax_concession_endorsements", "legal_name", "other_organisation_names",
         "charity_website", "date_organisation_established", "registration_date",
         "charity_size", "number_of_responsible_persons", "financial_year_end",
         "operates_in", "areas_of_interest", "acnc_address", "nsw_organisation_number",
         "nsw_name", "nsw_organisation_type", "nsw_status", "nsw_date_registered",
         "nsw_date_removed", "nsw_registered_office_address", "nsw_organisation_id",
         "sources", "updated_at"] ∧
      (write_merged_records_to_csv records).1.length = 39 := by
  intro records
  exact ⟨rfl, rfl⟩

/-- C10: `extract_data_for_postcode` is total: a failing extractor or
transformer yields the empty list for each of the three sources, a failed run
is indistinguishable from a successful run that found nothing, and an unknown
source name (the internal `ValueError` included) also yields the empty list. -/
theorem extract_never_propagates :
    ∀ (state postcode : String)
      (nswResult : Except Unit (List NSWRecord))
      (acncResult : Except Unit (List AcncRecord))
      (abnResult : Except Unit (List AbnRecord)),
      extract_data_for_postcode "nsw" state postcode (.error ()) acncResult abnResult = [] ∧
      extract_data_for_postcode "acnc" state postcode nswResult (.error ()) abnResult = [] ∧
      extract_data_for_postcode "abn" state postcode nswResult acncResult (.error ()) = [] ∧
      extract_data_for_postcode "nsw" state postcode (.error ()) acncResult abnResult =
        extract_data_for_postcode "nsw" state postcode (.ok []) acncResult abnResult ∧
      (∀ source : String, source ≠ "nsw" → source ≠ "acnc" → source ≠ "abn" →
        extract_data_for_postcode source state postcode nswResult acncResult abnResult = []) := by
  intro state postcode nswResult acncResult abnResult
  refine ⟨by simp [extract_data_for_postcode, Except.map],
    by simp [extract_data_for_postcode, Except.map],
    by simp [extract_data_for_postcode, Except.map],
    by simp [extract_data_for_postcode, Except.map], ?_⟩
  intro source h1 h2 h3
  simp [extract_data_for_postcode, h1, h2, h3]

/-- C10 witness: a concrete unknown source returns the empty list. -/
theorem extract_never_propagates_witness :
    extract_data_for_postcode "sql" "NSW" "2000" (.ok [nswRecX]) (.ok [acncRec1X])
      (.ok [abnRec1]) = [] :=
  (extract_never_propagates "NSW" "2000" (.ok [nswRecX]) (.ok [acncRec1X])
    (.ok [abnRec1])).2.2.2.2 "sql" (by decide) (by decide) (by decide)

/-- C7: in the ACNC-only pass, a record with a fresh truthy abn but a falsy
(empty or missing) `legal_name` always increments `acnc_only` and is appended
as the plain ACNC-only seed — no NSW merge happens, whatever `nsw_by_name`
contains. -/
theorem acnc_pass_empty_name_counts_acnc_only :
    ∀ (nswBy : String → Option NSWRecord) (now : String) (st : MergeState)
      (r : AcncRecord),
      truthy r.abn = true → r.abn.getD "" ∉ st.processed_abns →
      truthy r.legal_name = false →
      (processAcncRecord nswBy now st r).stats.acnc_only = st.stats.acnc_only + 1 ∧
      (processAcncRecord nswBy now st r).merged = st.merged ++ [seedFromAcnc r now] ∧
      (processAcncRecord nswBy now st r).processed_nsw_names = st.processed_nsw_names ∧
      (seedFromAcnc r now).sources = ["acnc"] ∧
      (seedFromAcnc r now).nsw_name = none := by
  intro nswBy now st r h1 h2 h3
  refine ⟨?_, ?_, ?_, rfl, rfl⟩ <;>
    simp [processAcncRecord, h1, h2, h3, seedFromAcnc]

/-- C7 witness: the concrete nameless secondary record counts `acnc_only`
even though a tertiary record named "X" is in the lookup. -/
theorem acnc_pass_empty_name_counts_acnc_only_witness :
    (processAcncRecord (nswByName [nswRecX]) "t" {} acncRec1NoName).stats.acnc_only
        = ({} : MergeState).stats.acnc_only + 1 ∧
    (processAcncRecord (nswByName [nswRecX]) "t" {} acncRec1NoName).merged
        = ({} : MergeState).merged ++ [seedFromAcnc acncRec1NoName "t"] ∧
    (processAcncRecord (nswByName [nswRecX]) "t" {} acncRec1NoName).processed_nsw_names
        = ({} : MergeState).processed_nsw_names ∧
    (seedFromAcnc acncRec1NoName "t").sources = ["acnc"] ∧
    (seedFromAcnc acncRec1NoName "t").nsw_name = none :=
  acnc_pass_empty_name_counts_acnc_only (nswByName [nswRecX]) "t" {} acncRec1NoName
    (by decide) (by decide) (by decide)

/-- C4: in the ABN-seeded pass, a surviving record bumps `all_source_matches`
exactly when it matched both ACNC and NSW, bumps `abn_only` exactly when it
matched neither, and when it matched ACNC but not NSW the only statistic that
changes is `abn_acnc_matches`. -/
theorem primary_pass_counter_classification :
    ∀ (acncBy : String → Option AcncRecord) (nswBy : String → Option NSWRecord)
      (now : String) (st : MergeState) (r : AbnRecord),
      truthy r.abn = true → r.abn.getD "" ∉ st.processed_abns →
      (processAbnRecord acncBy nswBy now st r).stats.all_source_matches =
        st.stats.all_source_matches +
          (if abnHasAcncMatch acncBy (r.abn.getD "") &&
              abnHasNswMatch acncBy nswBy (r.abn.getD "") then 1 else 0) ∧
      (processAbnRecord acncBy nswBy now st r).stats.abn_only =
        st.stats.abn_only +
          (if !abnHasAcncMatch acncBy (r.abn.getD "") &&
              !abnHasNswMatch acncBy nswBy (r.abn.getD "") then 1 else 0) ∧
      (abnHasAcncMatch acncBy (r.abn.getD "") = true →
        abnHasNswMatch acncBy nswBy (r.abn.getD "") = false →
        (processAbnRecord acncBy nswBy now st r).stats =
          { st.stats with abn_acnc_matches := st.stats.abn_acnc_matches + 1 }) := by
  intro acncBy nswBy now st r h1 h2
  cases hA : acncBy (r.abn.getD "") with
  | none =>
      refine ⟨?_, ?_, ?_⟩ <;>
        simp [processAbnRecord, abnHasAcncMatch, abnHasNswMatch, h1, h2, hA]
  | some a =>
      by_cases hl : truthy a.legal_name = true
      · cases hN : nswBy (cleanName (a.legal_name.getD "")) with
        | none =>
            refine ⟨?_, ?_, ?_⟩ <;>
              simp [processAbnRecord, abnHasAcncMatch, abnHasNswMatch, h1, h2, hA, hl, hN]
        | some n =>
            refine ⟨?_, ?_, ?_⟩ <;>
              simp [processAbnRecord, abnHasAcncMatch, abnHasNswMatch, h1, h2, hA, hl, hN]
      · rw [Bool.not_eq_true] at hl
        refine ⟨?_, ?_, ?_⟩ <;>
          simp [processAbnRecord, abnHasAcncMatch, abnHasNswMatch, h1, h2, hA, hl]

/-- C4 witness: the concrete primary record matching ACNC but not NSW changes
only `abn_acnc_matches`. -/
theorem primary_pass_counter_classification_witness :
    (processAbnRecord (acncByAbn [acncRec1X]) (nswByName []) "t" {} abnRec1).stats.all_source_matches =
      ({} : MergeState).stats.all_source_matches +
        (if abnHasAcncMatch (acncByAbn [acncRec1X]) (abnRec1.abn.getD "") &&
            abnHasNswMatch (acncByAbn [acncRec1X]) (nswByName []) (abnRec1.abn.getD "") then 1 else 0) ∧
    (processAbnRecord (acncByAbn [acncRec1X]) (nswByName []) "t" {} abnRec1).stats.abn_only =
      ({} : MergeState).stats.abn_only +
        (if !abnHasAcncMatch (acncByAbn [acncRec1X]) (abnRec1.abn.getD "") &&
            !abnHasNswMatch (acncByAbn [acncRec1X]) (nswByName []) (abnRec1.abn.getD "") then 1 else 0) ∧
    (abnHasAcncMatch (acncByAbn [acncRec1X]) (abnRec1.abn.getD "") = true →
      abnHasNswMatch (acncByAbn [acncRec1X]) (nswByName []) (abnRec1.abn.getD "") = false →
      (processAbnRecord (acncByAbn [acncRec1X]) (nswByName []) "t" {} abnRec1).stats =
        { ({} : MergeState).stats with
            abn_acnc_matches := ({} : MergeState).stats.abn_acnc_matches + 1 }) :=
  primary_pass_counter_classification (acncByAbn [acncRec1X]) (nswByName []) "t" {} abnRec1
    (by decide) (by decide)

/-- C2 counterexample: with two primary records whose secondary matches carry
the same legal name "X" and a single tertiary record named "X", the tertiary
record is merged into BOTH canonical records and `acnc_nsw_matches` reaches 2
— the ABN-seeded pass never consults `processed_nsw_names`, refuting the
claim's "AND not yet consumed" condition and its "at most one" consequence. -/
theorem primary_pass_tertiary_reuse_cex :
    ((mergeOrganizationRecords [abnRec1, abnRec2] [acncRec1X, acncRec2X] [nswRecX] "t").1.filter
      fun r => decide ("nsw" ∈ r.sources)).length = 2 ∧
    (mergeOrganizationRecords [abnRec1, abnRec2] [acncRec1X, acncRec2X] [nswRecX] "t").2.acnc_nsw_matches
      = 2 := by
  decide

/-- C2 amended: in the ABN-seeded pass, whenever the secondary match yields a
truthy legal name whose normalized form is a key of the tertiary lookup, the
tertiary fields are merged, the name is marked consumed and
`acnc_nsw_matches` (and `all_source_matches`) are incremented — regardless of
whether the name was already consumed; so primary records matching secondary
records with the same normalized legal name each merge the tertiary record. -/
theorem primary_pass_tertiary_merge_ignores_consumed :
    ∀ (acncBy : String → Option AcncRecord) (nswBy : String → Option NSWRecord)
      (now : String) (st : MergeState) (r : AbnRecord) (a : AcncRecord) (n : NSWRecord),
      truthy r.abn = true → r.abn.getD "" ∉ st.processed_abns →
      acncBy (r.abn.getD "") = some a →
      truthy a.legal_name = true →
      nswBy (cleanName (a.legal_name.getD "")) = some n →
      (processAbnRecord acncBy nswBy now st r).merged =
        st.merged ++ [mergeNswInto (mergeAcncInto (seedFromAbn r now) a) n] ∧
      (processAbnRecord acncBy nswBy now st r).stats.acnc_nsw_matches =
        st.stats.acnc_nsw_matches + 1 ∧
      (processAbnRecord acncBy nswBy now st r).stats.all_source_matches =
        st.stats.all_source_matches + 1 ∧
      cleanName (a.legal_name.getD "") ∈ (processAbnRecord acncBy nswBy now st r).processed_nsw_names ∧
      (mergeNswInto (mergeAcncInto (seedFromAbn r now) a) n).sources = ["abn", "acnc", "nsw"] := by
  intro acncBy nswBy now st r a n h1 h2 hA hl hN
  refine ⟨?_, ?_, ?_, ?_, rfl⟩ <;>
    simp [processAbnRecord, h1, h2, hA, hl, hN]

/-- C2 amended witness: the second primary record still merges the tertiary
record although its normalized name "X" is already in the consumed set. -/
theorem primary_pass_tertiary_merge_ignores_consumed_witness :
    (processAbnRecord (acncByAbn [acncRec2X]) (nswByName [nswRecX]) "t"
        { processed_nsw_names := ["X"] } abnRec2).merged =
      ({ processed_nsw_names := ["X"] } : MergeState).merged ++
        [mergeNswInto (mergeAcncInto (seedFromAbn abnRec2 "t") acncRec2X) nswRecX] ∧
    (processAbnRecord (acncByAbn [acncRec2X]) (nswByName [nswRecX]) "t"
        { processed_nsw_names := ["X"] } abnRec2).stats.acnc_nsw_matches =
      ({ processed_nsw_names := ["X"] } : MergeState).stats.acnc_nsw_matches + 1 ∧
    (processAbnRecord (acncByAbn [acncRec2X]) (nswByName [nswRecX]) "t"
        { processed_nsw_names := ["X"] } abnRec2).stats.all_source_matches =
      ({ processed_nsw_names := ["X"] } : MergeState).stats.all_source_matches + 1 ∧
    cleanName (acncRec2X.legal_name.getD "") ∈
      (processAbnRecord (acncByAbn [acncRec2X]) (nswByName [nswRecX]) "t"
        { processed_nsw_names := ["X"] } abnRec2).processed_nsw_names ∧
    (mergeNswInto (mergeAcncInto (seedFromAbn abnRec2 "t") acncRec2X) nswRecX).sources =
      ["abn", "acnc", "nsw"] :=
  primary_pass_tertiary_merge_ignores_consumed (acncByAbn [acncRec2X]) (nswByName [nswRecX])
    "t" { processed_nsw_names := ["X"] } abnRec2 acncRec2X nswRecX
    (by decide) (by decide) (by decide) (by decide) (by decide)

/-- C9: for a state with nothing registered (no postcode entry and hence no
memoized batch either), `sync_all_sources` returns the 404 NotFound outcome
carrying the not-found message, and the outcome does not depend on any
extraction jobs — no job result is consumed and no merge output appears. -/
theorem sync_no_postcodes_not_found :
    ∀ (state now : String) (jobs jobs2 : List SyncJob),
      sync_all_sources state none none jobs now =
        .notFound (noPostcodesMessage (pyUpper state)) ∧
      statusCode (sync_all_sources state none none jobs now) = 404 ∧
      sync_all_sources state none none jobs now =
        sync_all_sources state none none jobs2 now := by
  intro state now jobs jobs2
  exact ⟨rfl, rfl, rfl⟩

/-! ### Counter bookkeeping of the three merge passes (towards C5) -/

/-- One ABN-pass step appends one record exactly when it bumps exactly one of
`abn_only` / `abn_acnc_matches`; `all_source_matches` grows by at most the
growth of `abn_acnc_matches`; the other counters are untouched. -/
theorem processAbnRecord_counts (acncBy : String → Option AcncRecord)
    (nswBy : String → Option NSWRecord) (now : String) (st : MergeState) (r : AbnRecord) :
    (processAbnRecord acncBy nswBy now st r).merged.length
        + st.stats.abn_only + st.stats.abn_acnc_matches
      = st.merged.length + (processAbnRecord acncBy nswBy now st r).stats.abn_only
        + (processAbnRecord acncBy nswBy now st r).stats.abn_acnc_matches ∧
    (processAbnRecord acncBy nswBy now st r).stats.all_source_matches
        + st.stats.abn_acnc_matches
      ≤ st.stats.all_source_matches
        + (processAbnRecord acncBy nswBy now st r).stats.abn_acnc_matches ∧
    (processAbnRecord acncBy nswBy now st r).stats.acnc_only = st.stats.acnc_only ∧
    (processAbnRecord acncBy nswBy now st r).stats.nsw_only = st.stats.nsw_only := by
  by_cases h : truthy r.abn = false ∨ r.abn.getD "" ∈ st.processed_abns
  · simp [processAbnRecord, h]
  · cases hA : acncBy (r.abn.getD "") with
    | none =>
        refine ⟨?_, ?_, ?_, ?_⟩ <;> simp [processAbnRecord, h, hA] <;> omega
    | some a =>
        by_cases hl : truthy a.legal_name = true
        · cases hN : nswBy (cleanName (a.legal_name.getD "")) with
          | none =>
              refine ⟨?_, ?_, ?_, ?_⟩ <;> simp [processAbnRecord, h, hA, hl, hN] <;> omega
          | some n =>
              refine ⟨?_, ?_, ?_, ?_⟩ <;> simp [processAbnRecord, h, hA, hl, hN] <;> omega
        · rw [Bool.not_eq_true] at hl
          refine ⟨?_, ?_, ?_, ?_⟩ <;> simp [processAbnRecord, h, hA, hl] <;> omega

/-- Folding the ABN-seeded pass: output growth equals the growth of
`abn_only + abn_acnc_matches`, `all_source_matches` grows at most as much as
`abn_acnc_matches`, and `acnc_only` / `nsw_only` are untouched. -/
theorem pass1_fold_counts (acncBy : String → Option AcncRecord)
    (nswBy : String → Option NSWRecord) (now : String) :
    ∀ (l : List AbnRecord) (st : MergeState),
      (l.foldl (processAbnRecord acncBy nswBy now) st).merged.length
          + st.stats.abn_only + st.stats.abn_acnc_matches
        = st.merged.length + (l.foldl (processAbnRecord acncBy nswBy now) st).stats.abn_only
          + (l.foldl (processAbnRecord acncBy nswBy now) st).stats.abn_acnc_matches ∧
      (l.foldl (processAbnRecord acncBy nswBy now) st).stats.all_source_matches
          + st.stats.abn_acnc_matches
        ≤ st.stats.all_source_matches
          + (l.foldl (processAbnRecord acncBy nswBy now) st).stats.abn_acnc_matches ∧
      (l.foldl (processAbnRecord acncBy nswBy now) st).stats.acnc_only = st.stats.acnc_only ∧
      (l.foldl (processAbnRecord acncBy nswBy now) st).stats.nsw_only = st.stats.nsw_only := by
  intro l
  induction l with
  | nil => intro st; simp
  | cons r tl ih =>
      intro st
      obtain ⟨e1, e2, e3, e4⟩ := processAbnRecord_counts acncBy nswBy now st r
      obtain ⟨f1, f2, f3, f4⟩ := ih (processAbnRecord acncBy nswBy now st r)
      rw [List.foldl_cons]
      exact ⟨by omega, by omega, by omega, by omega⟩

/-- One ACNC-pass step leaves `abn_only`, `abn_acnc_matches`,
`all_source_matches` and `nsw_only` untouched, never shrinks the output, and
never touches `processed_abns`. -/
theorem processAcncRecord_counts (nswBy : String → Option NSWRecord) (now : String)
    (st : MergeState) (r : AcncRecord) :
    (processAcncRecord nswBy now st r).stats.abn_only = st.stats.abn_only ∧
    (processAcncRecord nswBy now st r).stats.abn_acnc_matches = st.stats.abn_acnc_matches ∧
    (processAcncRecord nswBy now st r).stats.all_source_matches = st.stats.all_source_matches ∧
    (processAcncRecord nswBy now st r).stats.nsw_only = st.stats.nsw_only ∧
    st.merged.length ≤ (processAcncRecord nswBy now st r).merged.length ∧
    (processAcncRecord nswBy now st r).processed_abns = st.processed_abns := by
  by_cases h : truthy r.abn = false ∨ r.abn.getD "" ∈ st.processed_abns
  · simp [processAcncRecord, h]
  · by_cases hl : truthy r.legal_name = true
    · cases hN : nswBy (cleanName (r.legal_name.getD "")) with
      | none =>
          refine ⟨?_, ?_, ?_, ?_, ?_, ?_⟩ <;> simp [processAcncRecord, h, hl, hN]
      | some n =>
          by_cases hc : cleanName (r.legal_name.getD "") ∈ st.processed_nsw_names
          · refine ⟨?_, ?_, ?_, ?_, ?_, ?_⟩ <;> simp [processAcncRecord, h, hl, hN, hc]
          · refine ⟨?_, ?_, ?_, ?_, ?_, ?_⟩ <;> simp [processAcncRecord, h, hl, hN, hc]
    · rw [Bool.not_eq_true] at hl
      refine ⟨?_, ?_, ?_, ?_, ?_, ?_⟩ <;> simp [processAcncRecord, h, hl]

/-- Folding the ACNC-only pass preserves the ABN-pass counters and
`processed_abns`, and never shrinks the output. -/
theorem pass2_fold_counts (nswBy : String → Option NSWRecord) (now : String) :
    ∀ (l : List AcncRecord) (st : MergeState),
      (l.foldl (processAcncRecord nswBy now) st).stats.abn_only = st.stats.abn_only ∧
      (l.foldl (processAcncRecord nswBy now) st).stats.abn_acnc_matches
        = st.stats.abn_acnc_matches ∧
      (l.foldl (processAcncRecord nswBy now) st).stats.all_source_matches
        = st.stats.all_source_matches ∧
      (l.foldl (processAcncRecord nswBy now) st).stats.nsw_only = st.stats.nsw_only ∧
      st.merged.length ≤ (l.foldl (processAcncRecord nswBy now) st).merged.length ∧
      (l.foldl (processAcncRecord nswBy now) st).processed_abns = st.processed_abns := by
  intro l
  induction l with
  | nil => intro st; simp
  | cons r tl ih =>
      intro st
      obtain ⟨e1, e2, e3, e4, e5, e6⟩ := processAcncRecord_counts nswBy now st r
      obtain ⟨f1, f2, f3, f4, f5, f6⟩ := ih (processAcncRecord nswBy now st r)
      rw [List.foldl_cons]
      exact ⟨by omega, by omega, by omega, by omega, by omega, by rw [f6, e6]⟩

/-- One NSW-pass step leaves every counter except `nsw_only` untouched, never
shrinks the output, and touches neither tracking set. -/
theorem processNswRecord_counts (now : String) (st : MergeState) (r : NSWRecord) :
    (processNswRecord now st r).stats.abn_only = st.stats.abn_only ∧
    (processNswRecord now st r).stats.abn_acnc_matches = st.stats.abn_acnc_matches ∧
    (processNswRecord now st r).stats.all_source_matches = st.stats.all_source_matches ∧
    (processNswRecord now st r).stats.acnc_only = st.stats.acnc_only ∧
    st.merged.length ≤ (processNswRecord now st r).merged.length ∧
    (processNswRecord now st r).processed_nsw_names = st.processed_nsw_names := by
  by_cases h : truthy r.name = false
  · simp [processNswRecord, h]
  · by_cases hc : cleanName (r.name.getD "") ∈ st.processed_nsw_names
    · refine ⟨?_, ?_, ?_, ?_, ?_, ?_⟩ <;> simp [processNswRecord, h, hc]
    · refine ⟨?_, ?_, ?_, ?_, ?_, ?_⟩ <;> simp [processNswRecord, h, hc]

/-- Folding the NSW-only pass preserves the other passes' counters and never
shrinks the output. -/
theorem pass3_fold_counts (now : String) :
    ∀ (l : List NSWRecord) (st : MergeState),
      (l.foldl (processNswRecord now) st).stats.abn_only = st.stats.abn_only ∧
      (l.foldl (processNswRecord now) st).stats.abn_acnc_matches
        = st.stats.abn_acnc_matches ∧
      (l.foldl (processNswRecord now) st).stats.all_source_matches
        = st.stats.all_source_matches ∧
      (l.foldl (processNswRecord now) st).stats.acnc_only = st.stats.acnc_only ∧
      st.merged.length ≤ (l.foldl (processNswRecord now) st).merged.length := by
  intro l
  induction l with
  | nil => intro st; simp
  | cons r tl ih =>
      intro st
      obtain ⟨e1, e2, e3, e4, e5, e6⟩ := processNswRecord_counts now st r
      obtain ⟨f1, f2, f3, f4, f5⟩ := ih (processNswRecord now st r)
      rw [List.foldl_cons]
      exact ⟨by omega, by omega, by omega, by omega, by omega⟩

/-- C5: the `merged_records` statistic is the length of the returned list,
which is the sum of the records the three passes appended, and the ABN-seeded
pass produced exactly
`abn_only + (abn_acnc_matches - all_source_matches) + all_source_matches`
records (with `all_source_matches ≤ abn_acnc_matches`, making the
subtraction exact). -/
theorem merge_conservation :
    ∀ (abnRecs : List AbnRecord) (acncRecs : List AcncRecord)
      (nswRecs : List NSWRecord) (now : String),
      (mergeOrganizationRecords abnRecs acncRecs nswRecs now).2.merged_records
        = (mergeOrganizationRecords abnRecs acncRecs nswRecs now).1.length ∧
      (mergeOrganizationRecords abnRecs acncRecs nswRecs now).1.length
        = (mergeSt1 abnRecs acncRecs nswRecs now).merged.length
          + ((mergeSt2 abnRecs acncRecs nswRecs now).merged.length
              - (mergeSt1 abnRecs acncRecs nswRecs now).merged.length)
          + ((mergeSt3 abnRecs acncRecs nswRecs now).merged.length
              - (mergeSt2 abnRecs acncRecs nswRecs now).merged.length) ∧
      (mergeSt1 abnRecs acncRecs nswRecs now).merged.length
        = (mergeOrganizationRecords abnRecs acncRecs nswRecs now).2.abn_only
          + ((mergeOrganizationRecords abnRecs acncRecs nswRecs now).2.abn_acnc_matches
              - (mergeOrganizationRecords abnRecs acncRecs nswRecs now).2.all_source_matches)
          + (mergeOrganizationRecords abnRecs acncRecs nswRecs now).2.all_source_matches ∧
      (mergeOrganizationRecords abnRecs acncRecs nswRecs now).2.all_source_matches
        ≤ (mergeOrganizationRecords abnRecs acncRecs nswRecs now).2.abn_acnc_matches := by
  intro abnRecs acncRecs nswRecs now
  obtain ⟨a1, a2, a3, a4⟩ :=
    pass1_fold_counts (acncByAbn acncRecs) (nswByName nswRecs) now abnRecs
      { stats := { total_abn_records := abnRecs.length
                   total_acnc_records := acncRecs.length
                   total_nsw_records := nswRecs.length } }
  obtain ⟨b1, b2, b3, b4, b5, b6⟩ :=
    pass2_fold_counts (nswByName nswRecs) now acncRecs (mergeSt1 abnRecs acncRecs nswRecs now)
  obtain ⟨c1, c2, c3, c4, c5⟩ :=
    pass3_fold_counts now nswRecs (mergeSt2 abnRecs acncRecs nswRecs now)
  have hst1 : mergeSt1 abnRecs acncRecs nswRecs now
      = abnRecs.foldl (processAbnRecord (acncByAbn acncRecs) (nswByName nswRecs) now)
          { stats := { total_abn_records := abnRecs.length
                       total_acnc_records := acncRecs.length
                       total_nsw_records := nswRecs.length } } := rfl
  rw [← hst1] at a1 a2 a3 a4
  have hst2 : mergeSt2 abnRecs acncRecs nswRecs now
      = acncRecs.foldl (processAcncRecord (nswByName nswRecs) now)
          (mergeSt1 abnRecs acncRecs nswRecs now) := rfl
  rw [← hst2] at b1 b2 b3 b4 b5 b6
  have hst3 : mergeSt3 abnRecs acncRecs nswRecs now
      = nswRecs.foldl (processNswRecord now) (mergeSt2 abnRecs acncRecs nswRecs now) := rfl
  rw [← hst3] at c1 c2 c3 c4 c5
  simp only [List.length_nil] at a1 a2
  have g1 : (mergeOrganizationRecords abnRecs acncRecs nswRecs now).2.abn_only
      = (mergeSt3 abnRecs acncRecs nswRecs now).stats.abn_only := rfl
  have g2 : (mergeOrganizationRecords abnRecs acncRecs nswRecs now).2.abn_acnc_matches
      = (mergeSt3 abnRecs acncRecs nswRecs now).stats.abn_acnc_matches := rfl
  have g3 : (mergeOrganizationRecords abnRecs acncRecs nswRecs now).2.all_source_matches
      = (mergeSt3 abnRecs acncRecs nswRecs now).stats.all_source_matches := rfl
  have g4 : (mergeOrganizationRecords abnRecs acncRecs nswRecs now).2.merged_records
      = (mergeSt3 abnRecs acncRecs nswRecs now).merged.length := rfl
  have g5 : (mergeOrganizationRecords abnRecs acncRecs nswRecs now).1
      = (mergeSt3 abnRecs acncRecs nswRecs now).merged := rfl
  rw [g1, g2, g3, g4, g5]
  refine ⟨rfl, by omega, by omega, by omega⟩

/-! ### Identifier bookkeeping of the three merge passes (towards C1) -/

/-- A truthy optional string is `some` of a non-empty string. -/
theorem truthy_some (o : Option String) (h : truthy o = true) :
    ∃ s, o = some s ∧ s ≠ "" := by
  cases o with
  | none => simp [truthy] at h
  | some s => exact ⟨s, rfl, by simpa [truthy] using h⟩

/-- A surviving ABN-pass record appends exactly one merged record, carrying
the record's abn, with a provenance that is never `["nsw"]`, and appends that
abn to `processed_abns`. -/
theorem processAbnRecord_append (acncBy : String → Option AcncRecord)
    (nswBy : String → Option NSWRecord) (now : String) (st : MergeState) (r : AbnRecord)
    (ht : truthy r.abn = true) (hm : r.abn.getD "" ∉ st.processed_abns) :
    ∃ m : MergedRecord,
      (processAbnRecord acncBy nswBy now st r).merged = st.merged ++ [m] ∧
      m.abn = r.abn ∧
      m.sources ≠ ["nsw"] ∧
      (processAbnRecord acncBy nswBy now st r).processed_abns
        = st.processed_abns ++ [r.abn.getD ""] := by
  have hg : ¬ (truthy r.abn = false ∨ r.abn.getD "" ∈ st.processed_abns) := by
    simp [ht, hm]
  cases hA : acncBy (r.abn.getD "") with
  | none =>
      refine ⟨seedFromAbn r now, ?_, rfl, by simp [seedFromAbn], ?_⟩ <;>
        simp [processAbnRecord, hg, hA]
  | some a =>
      by_cases hl : truthy a.legal_name = true
      · cases hN : nswBy (cleanName (a.legal_name.getD "")) with
        | none =>
            refine ⟨mergeAcncInto (seedFromAbn r now) a, ?_, rfl,
              by simp [mergeAcncInto, seedFromAbn], ?_⟩ <;>
              simp [processAbnRecord, hg, hA, hl, hN]
        | some n =>
            refine ⟨mergeNswInto (mergeAcncInto (seedFromAbn r now) a) n, ?_, rfl,
              by simp [mergeNswInto, mergeAcncInto, seedFromAbn], ?_⟩ <;>
              simp [processAbnRecord, hg, hA, hl, hN]
      · rw [Bool.not_eq_true] at hl
        refine ⟨mergeAcncInto (seedFromAbn r now) a, ?_, rfl,
          by simp [mergeAcncInto, seedFromAbn], ?_⟩ <;>
          simp [processAbnRecord, hg, hA, hl]

/-- The ABN-pass invariant: the non-null abns of the output are exactly
`processed_abns` (in order), `processed_abns` stays duplicate-free, and no
output record has provenance `["nsw"]`. -/
theorem pass1_fold_abns (acncBy : String → Option AcncRecord)
    (nswBy : String → Option NSWRecord) (now : String) :
    ∀ (l : List AbnRecord) (st : MergeState),
      mergedAbns st.merged = st.processed_abns →
      st.processed_abns.Nodup →
      (∀ m ∈ st.merged, m.sources ≠ ["nsw"]) →
      mergedAbns (l.foldl (processAbnRecord acncBy nswBy now) st).merged
          = (l.foldl (processAbnRecord acncBy nswBy now) st).processed_abns ∧
      (l.foldl (processAbnRecord acncBy nswBy now) st).processed_abns.Nodup ∧
      ∀ m ∈ (l.foldl (processAbnRecord acncBy nswBy now) st).merged,
        m.sources ≠ ["nsw"] := by
  intro l
  induction l with
  | nil => intro st h1 h2 h3; exact ⟨h1, h2, h3⟩
  | cons r tl ih =>
      intro st h1 h2 h3
      rw [List.foldl_cons]
      by_cases hg : truthy r.abn = false ∨ r.abn.getD "" ∈ st.processed_abns
      · have hskip : processAbnRecord acncBy nswBy now st r = st := by
          simp [processAbnRecord, hg]
        rw [hskip]
        exact ih st h1 h2 h3
      · have hg1 : truthy r.abn = true := by
          cases h : truthy r.abn
          · exact absurd (Or.inl h) hg
          · rfl
        have hg2 : r.abn.getD "" ∉ st.processed_abns := fun hmem => hg (Or.inr hmem)
        obtain ⟨m, e1, e2, e3, e4⟩ :=
          processAbnRecord_append acncBy nswBy now st r hg1 hg2
        obtain ⟨s, hs, _⟩ := truthy_some r.abn hg1
        refine ih (processAbnRecord acncBy nswBy now st r) ?_ ?_ ?_
        · rw [e1, e4, mergedAbns, List.filterMap_append]
          rw [mergedAbns] at h1
          rw [h1]
          simp [e2, hs]
        · rw [e4]
          simp only [List.nodup_append, List.nodup_cons, List.nodup_nil,
            List.disjoint_singleton]
          refine ⟨h2, by simp, ?_⟩
          simpa [hs] using hg2
        · intro m2 hm2
          rw [e1] at hm2
          rcases List.mem_append.mp hm2 with h | h
          · exact h3 m2 h
          · rw [List.mem_singleton] at h
            rw [h]
            exact e3

/-- An ACNC-pass step: `processed_abns` is untouched; the output gains the
record's abn exactly when the record survives; records with provenance
`["nsw"]` are never added. -/
theorem processAcncRecord_abns (nswBy : String → Option NSWRecord) (now : String)
    (st : MergeState) (r : AcncRecord) :
    (processAcncRecord nswBy now st r).processed_abns = st.processed_abns ∧
    mergedAbns (processAcncRecord nswBy now st r).merged
      = mergedAbns st.merged
        ++ (if survivesAcnc st.processed_abns r = true then [r.abn.getD ""] else []) ∧
    ((∀ m ∈ st.merged, m.sources ≠ ["nsw"]) →
      ∀ m ∈ (processAcncRecord nswBy now st r).merged, m.sources ≠ ["nsw"]) := by
  by_cases hg : truthy r.abn = false ∨ r.abn.getD "" ∈ st.processed_abns
  · have hskip : processAcncRecord nswBy now st r = st := by
      simp [processAcncRecord, hg]
    have hsur : survivesAcnc st.processed_abns r = false := by
      rcases hg with h | h <;> simp [survivesAcnc, h]
    rw [hskip, hsur]
    exact ⟨rfl, by simp, fun h => h⟩
  · have hg1 : truthy r.abn = true := by
      cases h : truthy r.abn
      · exact absurd (Or.inl h) hg
      · rfl
    have hg2 : r.abn.getD "" ∉ st.processed_abns := fun hmem => hg (Or.inr hmem)
    obtain ⟨s, hs, _⟩ := truthy_some r.abn hg1
    have hsur : survivesAcnc st.processed_abns r = true := by
      simp [survivesAcnc, hg1, hg2]
    have hng : ¬ (truthy r.abn = false ∨ r.abn.getD "" ∈ st.processed_abns) := by
      simp [hg1, hg2]
    have key : ∃ m : MergedRecord,
        (processAcncRecord nswBy now st r).merged = st.merged ++ [m] ∧
        m.abn = r.abn ∧ m.sources ≠ ["nsw"] ∧
        (processAcncRecord nswBy now st r).processed_abns = st.processed_abns := by
      by_cases hl : truthy r.legal_name = true
      · cases hN : nswBy (cleanName (r.legal_name.getD "")) with
        | none =>
            refine ⟨seedFromAcnc r now, ?_, rfl, by simp [seedFromAcnc], ?_⟩ <;>
              simp [processAcncRecord, hng, hl, hN]
        | some n =>
            by_cases hc : cleanName (r.legal_name.getD "") ∈ st.processed_nsw_names
            · refine ⟨seedFromAcnc r now, ?_, rfl, by simp [seedFromAcnc], ?_⟩ <;>
                simp [processAcncRecord, hng, hl, hN, hc]
            · refine ⟨mergeNswInto (seedFromAcnc r now) n, ?_, rfl,
                by simp [mergeNswInto, seedFromAcnc], ?_⟩ <;>
                simp [processAcncRecord, hng, hl, hN, hc]
      · rw [Bool.not_eq_true] at hl
        refine ⟨seedFromAcnc r now, ?_, rfl, by simp [seedFromAcnc], ?_⟩ <;>
          simp [processAcncRecord, hng, hl]
    obtain ⟨m, e1, e2, e3, e4⟩ := key
    refine ⟨e4, ?_, ?_⟩
    · rw [e1, hsur, mergedAbns, List.filterMap_append, mergedAbns]
      simp [e2, hs]
    · intro h m2 hm2
      rw [e1] at hm2
      rcases List.mem_append.mp hm2 with h2 | h2
      · exact h m2 h2
      · rw [List.mem_singleton] at h2
        rw [h2]
        exact e3

/-- Folding the ACNC-only pass: `processed_abns` is unchanged and the
output's non-null abns grow by exactly the abns of the surviving records. -/
theorem pass2_fold_abns (nswBy : String → Option NSWRecord) (now : String) :
    ∀ (l : List AcncRecord) (st : MergeState),
      (l.foldl (processAcncRecord nswBy now) st).processed_abns = st.processed_abns ∧
      mergedAbns (l.foldl (processAcncRecord nswBy now) st).merged
        = mergedAbns st.merged
          ++ (l.filter (survivesAcnc st.processed_abns)).map (fun r => r.abn.getD "") ∧
      ((∀ m ∈ st.merged, m.sources ≠ ["nsw"]) →
        ∀ m ∈ (l.foldl (processAcncRecord nswBy now) st).merged,
          m.sources ≠ ["nsw"]) := by
  intro l
  induction l with
  | nil => intro st; exact ⟨rfl, by simp, fun h => h⟩
  | cons r tl ih =>
      intro st
      obtain ⟨e1, e2, e3⟩ := processAcncRecord_abns nswBy now st r
      obtain ⟨f1, f2, f3⟩ := ih (processAcncRecord nswBy now st r)
      rw [List.foldl_cons]
      refine ⟨by rw [f1, e1], ?_, fun h => f3 (e3 h)⟩
      rw [f2, e1, e2, List.filter_cons]
      by_cases hsur : survivesAcnc st.processed_abns r = true
      · simp [hsur, List.append_assoc]
      · rw [Bool.not_eq_true] at hsur
        simp [hsur]

/-- An NSW-pass step: the output gains the NSW-only seed exactly when the
record survives, and both tracking sets are untouched. -/
theorem processNswRecord_merged (now : String) (st : MergeState) (r : NSWRecord) :
    (processNswRecord now st r).merged
      = st.merged
        ++ (if survivesNsw st.processed_nsw_names r = true then [seedFromNsw r now] else []) ∧
    (processNswRecord now st r).processed_nsw_names = st.processed_nsw_names := by
  by_cases h : truthy r.name = false
  · have hsur : survivesNsw st.processed_nsw_names r = false := by
      simp [survivesNsw, h]
    rw [hsur]
    constructor <;> simp [processNswRecord, h]
  · rw [Bool.not_eq_false] at h
    by_cases hc : cleanName (r.name.getD "") ∈ st.processed_nsw_names
    · have hsur : survivesNsw st.processed_nsw_names r = false := by
        simp [survivesNsw, h, hc]
      rw [hsur]
      constructor <;> simp [processNswRecord, h, hc]
    · have hsur : survivesNsw st.processed_nsw_names r = true := by
        simp [survivesNsw, h, hc]
      rw [hsur]
      constructor <;> simp [processNswRecord, h, hc]

/-- Folding the NSW-only pass appends exactly the NSW-only seeds of the
records surviving against the (unchanged) consumed-name set. -/
theorem pass3_fold_merged (now : String) :
    ∀ (l : List NSWRecord) (st : MergeState),
      (l.foldl (processNswRecord now) st).merged
        = st.merged
          ++ (l.filter (survivesNsw st.processed_nsw_names)).map (fun r => seedFromNsw r now) := by
  intro l
  induction l with
  | nil => intro st; simp
  | cons r tl ih =>
      intro st
      obtain ⟨e1, e2⟩ := processNswRecord_merged now st r
      rw [List.foldl_cons, ih (processNswRecord now st r), e1, e2, List.filter_cons]
      by_cases hsur : survivesNsw st.processed_nsw_names r = true
      · simp [hsur, List.append_assoc]
      · rw [Bool.not_eq_true] at hsur
        simp [hsur]

/-- The surviving ACNC records are the not-yet-processed slice of the
truthy-abn records. -/
theorem survivesAcnc_filter_eq (P : List String) (l : List AcncRecord) :
    l.filter (survivesAcnc P)
      = (l.filter fun r => truthy r.abn).filter fun r => decide (r.abn.getD "" ∉ P) := by
  rw [List.filter_filter]
  exact List.filter_congr fun a _ => by simp [survivesAcnc, Bool.and_comm]

/-- The surviving NSW records are the not-yet-consumed slice of the
truthy-name records. -/
theorem survivesNsw_filter_eq (C : List String) (l : List NSWRecord) :
    l.filter (survivesNsw C)
      = (l.filter fun r => truthy r.name).filter fun r =>
          decide (cleanName (r.name.getD "") ∉ C) := by
  rw [List.filter_filter]
  exact List.filter_congr fun a _ => by simp [survivesNsw, Bool.and_comm]

/-- NSW-only seeds carry no primary identifier. -/
theorem mergedAbns_nsw_seeds (l : List NSWRecord) (now : String) :
    mergedAbns (l.map fun r => seedFromNsw r now) = [] := by
  induction l with
  | nil => rfl
  | cons r tl ih =>
      simp only [List.map_cons, mergedAbns, List.filterMap_cons] at ih ⊢
      simpa [seedFromNsw] using ih

/-- C1 counterexample: the ACNC-only pass never records processed abns and the
NSW-only pass never records consumed names, so duplicated secondary records
produce two canonical records with the same non-null abn "1", and duplicated
tertiary records produce two tertiary-only canonical records with the same
normalized name "X" — the claim fails as stated. -/
theorem merge_identifier_uniqueness_cex :
    ¬ (mergedAbns (mergeOrganizationRecords [] [acncRec1NoName, acncRec1NoName] [] "t").1).Nodup ∧
    ¬ (nswOnlyNames (mergeOrganizationRecords [] [] [nswRecX, nswRecX] "t").1).Nodup := by
  decide

/-- C1 amended: when no two secondary records share a truthy identifier and no
two tertiary records share a truthy normalized name, no two canonical records
share a non-null primary identifier and no two tertiary-only canonical
records share a normalized name. -/
theorem merge_identifier_uniqueness_of_nodup_inputs :
    ∀ (abnRecs : List AbnRecord) (acncRecs : List AcncRecord)
      (nswRecs : List NSWRecord) (now : String),
      ((acncRecs.filter fun r => truthy r.abn).map fun r => r.abn.getD "").Nodup →
      ((nswRecs.filter fun r => truthy r.name).map fun r => cleanName (r.name.getD "")).Nodup →
      (mergedAbns (mergeOrganizationRecords abnRecs acncRecs nswRecs now).1).Nodup ∧
      (nswOnlyNames (mergeOrganizationRecords abnRecs acncRecs nswRecs now).1).Nodup := by
  intro abnRecs acncRecs nswRecs now h1 h2
  obtain ⟨p1, p2, p3⟩ :=
    pass1_fold_abns (acncByAbn acncRecs) (nswByName nswRecs) now abnRecs
      { stats := { total_abn_records := abnRecs.length
                   total_acnc_records := acncRecs.length
                   total_nsw_records := nswRecs.length } }
      rfl List.nodup_nil (by simp)
  have hs1 : abnRecs.foldl (processAbnRecord (acncByAbn acncRecs) (nswByName nswRecs) now)
      { stats := { total_abn_records := abnRecs.length
                   total_acnc_records := acncRecs.length
                   total_nsw_records := nswRecs.length } }
      = mergeSt1 abnRecs acncRecs nswRecs now := rfl
  rw [hs1] at p1 p2 p3
  obtain ⟨q1, q2, q3⟩ :=
    pass2_fold_abns (nswByName nswRecs) now acncRecs (mergeSt1 abnRecs acncRecs nswRecs now)
  have hs2 : acncRecs.foldl (processAcncRecord (nswByName nswRecs) now)
      (mergeSt1 abnRecs acncRecs nswRecs now) = mergeSt2 abnRecs acncRecs nswRecs now := rfl
  rw [hs2] at q1 q2 q3
  have r1 := pass3_fold_merged now nswRecs (mergeSt2 abnRecs acncRecs nswRecs now)
  have hs3 : nswRecs.foldl (processNswRecord now)
      (mergeSt2 abnRecs acncRecs nswRecs now) = mergeSt3 abnRecs acncRecs nswRecs now := rfl
  rw [hs3] at r1
  have hout : (mergeOrganizationRecords abnRecs acncRecs nswRecs now).1
      = (mergeSt3 abnRecs acncRecs nswRecs now).merged := rfl
  have hG3 : ∀ m ∈ (mergeSt2 abnRecs acncRecs nswRecs now).merged, m.sources ≠ ["nsw"] :=
    q3 p3
  constructor
  · -- non-null abn uniqueness
    rw [hout, r1, mergedAbns, List.filterMap_append, ← mergedAbns, ← mergedAbns,
      mergedAbns_nsw_seeds, List.append_nil, q2, p1]
    have dQ : ((acncRecs.filter
        (survivesAcnc (mergeSt1 abnRecs acncRecs nswRecs now).processed_abns)).map
          fun r => r.abn.getD "").Nodup := by
      rw [survivesAcnc_filter_eq]
      exact List.Nodup.sublist
        (List.Sublist.map _ (List.filter_sublist _)) h1
    have hdis : ∀ x ∈ ((acncRecs.filter
        (survivesAcnc (mergeSt1 abnRecs acncRecs nswRecs now).processed_abns)).map
          fun r => r.abn.getD ""),
        x ∉ (mergeSt1 abnRecs acncRecs nswRecs now).processed_abns := by
      intro x hx
      simp only [List.mem_map, List.mem_filter] at hx
      obtain ⟨r, ⟨_, hsur⟩, rfl⟩ := hx
      have := (Bool.and_eq_true _ _).mp hsur
      exact of_decide_eq_true this.2
    exact List.Nodup.append p2 dQ (List.disjoint_right.mpr hdis)
  · -- tertiary-only normalized-name uniqueness
    rw [hout, r1, nswOnlyNames, List.filter_append]
    have hnil : (mergeSt2 abnRecs acncRecs nswRecs now).merged.filter
        (fun r => decide (r.sources = ["nsw"])) = [] := by
      rw [List.filter_eq_nil]
      intro a ha
      simpa using hG3 a ha
    have hself : ((nswRecs.filter
        (survivesNsw (mergeSt2 abnRecs acncRecs nswRecs now).processed_nsw_names)).map
          fun r => seedFromNsw r now).filter (fun r => decide (r.sources = ["nsw"]))
        = (nswRecs.filter
            (survivesNsw (mergeSt2 abnRecs acncRecs nswRecs now).processed_nsw_names)).map
              fun r => seedFromNsw r now := by
      rw [List.filter_eq_self]
      intro a ha
      simp only [List.mem_map] at ha
      obtain ⟨r, _, rfl⟩ := ha
      simp [seedFromNsw]
    rw [hnil, List.nil_append, hself, List.map_map]
    have hmapeq : ((fun r : MergedRecord => cleanName (r.nsw_name.getD "")) ∘
        fun r => seedFromNsw r now) = fun r : NSWRecord => cleanName (r.name.getD "") := rfl
    rw [hmapeq, survivesNsw_filter_eq]
    exact List.Nodup.sublist (List.Sublist.map _ (List.filter_sublist _)) h2

/-- C1 amended witness: scenario A's inputs satisfy the distinctness
hypotheses and yield duplicate-free identifiers and names. -/
theorem merge_identifier_uniqueness_of_nodup_inputs_witness :
    (mergedAbns (mergeOrganizationRecords [abnRec1] [acncRec1X] [nswRecX] "t").1).Nodup ∧
    (nswOnlyNames (mergeOrganizationRecords [abnRec1] [acncRec1X] [nswRecX] "t").1).Nodup :=
  merge_identifier_uniqueness_of_nodup_inputs [abnRec1] [acncRec1X] [nswRecX] "t"
    (by decide) (by decide)

/-! ### The result-collection loop of `sync_all_sources` (towards C3) -/

/-- One collection step adds a postcode to `failed_postcodes` exactly for a
failed job with that postcode. -/
theorem collectStep_failed_mem (st : CollectState) (j : SyncJob) (p : String) :
    p ∈ (collectStep st j).failed ↔
      p ∈ st.failed ∨ (jobFailed j = true ∧ j.postcode = p) := by
  obtain ⟨pc, outcome⟩ := j
  cases outcome with
  | error e =>
      by_cases hin : pc ∈ st.failed
      · simp only [collectStep, hin, if_true, jobFailed, true_and]
        constructor
        · exact Or.inl
        · rintro (h | rfl)
          · exact h
          · exact hin
      · simp only [collectStep, hin, if_false, jobFailed, true_and, List.mem_append,
          List.mem_singleton]
        constructor
        · rintro (h | rfl)
          · exact Or.inl h
          · exact Or.inr rfl
        · rintro (h | rfl)
          · exact Or.inl h
          · exact Or.inr rfl
  | ok recs =>
      cases recs <;> simp [collectStep, jobFailed]

/-- A postcode is in `failed_postcodes` after the collection loop exactly when
it was there initially or one of its jobs failed. -/
theorem collect_failed_mem :
    ∀ (jobs : List SyncJob) (st : CollectState) (p : String),
      p ∈ (jobs.foldl collectStep st).failed ↔
        p ∈ st.failed ∨ ∃ j ∈ jobs, j.postcode = p ∧ jobFailed j = true := by
  intro jobs
  induction jobs with
  | nil => intro st p; simp
  | cons j tl ih =>
      intro st p
      rw [List.foldl_cons, ih (collectStep st j) p, collectStep_failed_mem]
      simp only [List.mem_cons]
      constructor
      · rintro ((h | ⟨hf, hp⟩) | ⟨j2, hj2, hp2, hf2⟩)
        · exact Or.inl h
        · exact Or.inr ⟨j, Or.inl rfl, hp, hf⟩
        · exact Or.inr ⟨j2, Or.inr hj2, hp2, hf2⟩
      · rintro (h | ⟨j2, (rfl | hj2), hp2, hf2⟩)
        · exact Or.inl (Or.inl h)
        · exact Or.inl (Or.inr ⟨hf2, hp2⟩)
        · exact Or.inr ⟨j2, hj2, hp2, hf2⟩

/-- `abnTotal` over a cons. -/
theorem abnTotal_cons (j : SyncJob) (tl : List SyncJob) (p : String) :
    abnTotal (j :: tl) p = abnContribution p j + abnTotal tl p := by
  simp [abnTotal]

/-- `acncTotal` over a cons. -/
theorem acncTotal_cons (j : SyncJob) (tl : List SyncJob) (p : String) :
    acncTotal (j :: tl) p = acncContribution p j + acncTotal tl p := by
  simp [acncTotal]

/-- `nswTotal` over a cons. -/
theorem nswTotal_cons (j : SyncJob) (tl : List SyncJob) (p : String) :
    nswTotal (j :: tl) p = nswContribution p j + nswTotal tl p := by
  simp [nswTotal]

/-- Without a successful abn job for `p` the abn total for `p` is zero. -/
theorem abnTotal_eq_zero (p : String) :
    ∀ jobs : List SyncJob, hasAbnSuccess jobs p = false → abnTotal jobs p = 0 := by
  intro jobs
  induction jobs with
  | nil => intro _; rfl
  | cons j tl ih =>
      intro h
      rw [hasAbnSuccess, List.any_cons, Bool.or_eq_false_iff] at h
      obtain ⟨h1, h2⟩ := h
      rw [abnTotal_cons, ih h2]
      obtain ⟨pc, outcome⟩ := j
      cases outcome with
      | error e => rfl
      | ok recs =>
          cases recs with
          | abnR rs =>
              simp only [decide_eq_false_iff_not] at h1
              simp [abnContribution, h1]
          | acncR rs => rfl
          | nswR rs => rfl

/-- Without a successful acnc job for `p` the acnc total for `p` is zero. -/
theorem acncTotal_eq_zero (p : String) :
    ∀ jobs : List SyncJob, hasAcncSuccess jobs p = false → acncTotal jobs p = 0 := by
  intro jobs
  induction jobs with
  | nil => intro _; rfl
  | cons j tl ih =>
      intro h
      rw [hasAcncSuccess, List.any_cons, Bool.or_eq_false_iff] at h
      obtain ⟨h1, h2⟩ := h
      rw [acncTotal_cons, ih h2]
      obtain ⟨pc, outcome⟩ := j
      cases outcome with
      | error e => rfl
      | ok recs =>
          cases recs with
          | abnR rs => rfl
          | acncR rs =>
              simp only [decide_eq_false_iff_not] at h1
              simp [acncContribution, h1]
          | nswR rs => rfl

/-- Without a successful nsw job for `p` the nsw total for `p` is zero. -/
theorem nswTotal_eq_zero (p : String) :
    ∀ jobs : List SyncJob, hasNswSuccess jobs p = false → nswTotal jobs p = 0 := by
  intro jobs
  induction jobs with
  | nil => intro _; rfl
  | cons j tl ih =>
      intro h
      rw [hasNswSuccess, List.any_cons, Bool.or_eq_false_iff] at h
      obtain ⟨h1, h2⟩ := h
      rw [nswTotal_cons, ih h2]
      obtain ⟨pc, outcome⟩ := j
      cases outcome with
      | error e => rfl
      | ok recs =>
          cases recs with
          | abnR rs => rfl
          | acncR rs => rfl
          | nswR rs =>
              simp only [decide_eq_false_iff_not] at h1
              simp [nswContribution, h1]

/-- A successful abn job for `p` exists exactly when `(0, p)` is a success
key. -/
theorem hasAbnSuccess_iff_mem (jobs : List SyncJob) (p : String) :
    hasAbnSuccess jobs p = true ↔ (0, p) ∈ successKeys jobs := by
  rw [hasAbnSuccess, List.any_eq_true]
  rw [successKeys, List.mem_filterMap]
  refine exists_congr fun j => and_congr_right fun _ => ?_
  obtain ⟨pc, outcome⟩ := j
  cases outcome with
  | error e => simp [successKey]
  | ok recs => cases recs <;> simp [successKey]

/-- A successful acnc job for `p` exists exactly when `(1, p)` is a success
key. -/
theorem hasAcncSuccess_iff_mem (jobs : List SyncJob) (p : String) :
    hasAcncSuccess jobs p = true ↔ (1, p) ∈ successKeys jobs := by
  rw [hasAcncSuccess, List.any_eq_true]
  rw [successKeys, List.mem_filterMap]
  refine exists_congr fun j => and_congr_right fun _ => ?_
  obtain ⟨pc, outcome⟩ := j
  cases outcome with
  | error e => simp [successKey]
  | ok recs => cases recs <;> simp [successKey]

/-- A successful nsw job for `p` exists exactly when `(2, p)` is a success
key. -/
theorem hasNswSuccess_iff_mem (jobs : List SyncJob) (p : String) :
    hasNswSuccess jobs p = true ↔ (2, p) ∈ successKeys jobs := by
  rw [hasNswSuccess, List.any_eq_true]
  rw [successKeys, List.mem_filterMap]
  refine exists_congr fun j => and_congr_right fun _ => ?_
  obtain ⟨pc, outcome⟩ := j
  cases outcome with
  | error e => simp [successKey]
  | ok recs => cases recs <;> simp [successKey]

/-- With pairwise-distinct success keys, the stored abn count for `p` after
the collection loop is its abn total when some abn job for `p` succeeded, and
the initial value otherwise. -/
theorem collect_viewAbn :
    ∀ (jobs : List SyncJob) (st : CollectState) (p : String),
      (successKeys jobs).Nodup →
      viewAbn ((jobs.foldl collectStep st).byPostcode p)
        = if hasAbnSuccess jobs p = true then abnTotal jobs p
          else viewAbn (st.byPostcode p) := by
  intro jobs
  induction jobs with
  | nil => intro st p _; simp [hasAbnSuccess]
  | cons j tl ih =>
      intro st p hnd
      rw [List.foldl_cons]
      obtain ⟨pc, outcome⟩ := j
      cases outcome with
      | error e =>
          have hkey : successKeys (⟨pc, .error e⟩ :: tl) = successKeys tl := by
            simp [successKeys, successKey]
          rw [hkey] at hnd
          have hstep : (collectStep st ⟨pc, .error e⟩).byPostcode = st.byPostcode := by
            by_cases hin : pc ∈ st.failed <;> simp [collectStep, hin]
          rw [ih (collectStep st ⟨pc, .error e⟩) p hnd, hstep]
          have hH : hasAbnSuccess (⟨pc, .error e⟩ :: tl) p = hasAbnSuccess tl p := by
            simp [hasAbnSuccess]
          have hT : abnTotal (⟨pc, .error e⟩ :: tl) p = abnTotal tl p := by
            rw [abnTotal_cons]; simp [abnContribution]
          rw [hH, hT]
      | ok recs =>
          cases recs with
          | abnR rs =>
              have hkey : successKeys (⟨pc, .ok (.abnR rs)⟩ :: tl)
                  = (0, pc) :: successKeys tl := by
                simp [successKeys, successKey]
              rw [hkey, List.nodup_cons] at hnd
              obtain ⟨hnotin, hnd2⟩ := hnd
              by_cases hp : pc = p
              · subst hp
                have hnot : hasAbnSuccess tl pc = false := by
                  cases h : hasAbnSuccess tl pc
                  · rfl
                  · exact absurd ((hasAbnSuccess_iff_mem tl pc).mp h) hnotin
                rw [ih (collectStep st ⟨pc, .ok (.abnR rs)⟩) pc hnd2, hnot]
                have hstep : viewAbn ((collectStep st ⟨pc, .ok (.abnR rs)⟩).byPostcode pc)
                    = rs.length := by
                  simp [collectStep, viewAbn]
                rw [if_neg (by simp), hstep]
                have hH : hasAbnSuccess (⟨pc, .ok (.abnR rs)⟩ :: tl) pc = true := by
                  simp [hasAbnSuccess]
                rw [if_pos hH, abnTotal_cons, abnTotal_eq_zero pc tl hnot]
                simp [abnContribution]
              · have hstep : (collectStep st ⟨pc, .ok (.abnR rs)⟩).byPostcode p
                    = st.byPostcode p := by
                  have hp2 : ¬ (p = pc) := fun h => hp h.symm
                  simp [collectStep, hp2]
                rw [ih (collectStep st ⟨pc, .ok (.abnR rs)⟩) p hnd2, hstep]
                have hH : hasAbnSuccess (⟨pc, .ok (.abnR rs)⟩ :: tl) p
                    = hasAbnSuccess tl p := by
                  simp [hasAbnSuccess, hp]
                have hT : abnTotal (⟨pc, .ok (.abnR rs)⟩ :: tl) p = abnTotal tl p := by
                  rw [abnTotal_cons]
                  simp [abnContribution, hp]
                rw [hH, hT]
          | acncR rs =>
              have hkey : successKeys (⟨pc, .ok (.acncR rs)⟩ :: tl)
                  = (1, pc) :: successKeys tl := by
                simp [successKeys, successKey]
              rw [hkey, List.nodup_cons] at hnd
              have hstep : viewAbn ((collectStep st ⟨pc, .ok (.acncR rs)⟩).byPostcode p)
                  = viewAbn (st.byPostcode p) := by
                by_cases hp : p = pc
                · subst hp
                  cases h : st.byPostcode p <;> simp [collectStep, viewAbn, h]
                · simp [collectStep, hp]
              rw [ih (collectStep st ⟨pc, .ok (.acncR rs)⟩) p hnd.2, hstep]
              have hH : hasAbnSuccess (⟨pc, .ok (.acncR rs)⟩ :: tl) p
                  = hasAbnSuccess tl p := by
                simp [hasAbnSuccess]
              have hT : abnTotal (⟨pc, .ok (.acncR rs)⟩ :: tl) p = abnTotal tl p := by
                rw [abnTotal_cons]; simp [abnContribution]
              rw [hH, hT]
          | nswR rs =>
              have hkey : successKeys (⟨pc, .ok (.nswR rs)⟩ :: tl)
                  = (2, pc) :: successKeys tl := by
                simp [successKeys, successKey]
              rw [hkey, List.nodup_cons] at hnd
              have hstep : viewAbn ((collectStep st ⟨pc, .ok (.nswR rs)⟩).byPostcode p)
                  = viewAbn (st.byPostcode p) := by
                by_cases hp : p = pc
                · subst hp
                  cases h : st.byPostcode p <;> simp [collectStep, viewAbn, h]
                · simp [collectStep, hp]
              rw [ih (collectStep st ⟨pc, .ok (.nswR rs)⟩) p hnd.2, hstep]
              have hH : hasAbnSuccess (⟨pc, .ok (.nswR rs)⟩ :: tl) p
                  = hasAbnSuccess tl p := by
                simp [hasAbnSuccess]
              have hT : abnTotal (⟨pc, .ok (.nswR rs)⟩ :: tl) p = abnTotal tl p := by
                rw [abnTotal_cons]; simp [abnContribution]
              rw [hH, hT]

/-- With pairwise-distinct success keys, the stored acnc count for `p` after
the collection loop is its acnc total when some acnc job for `p` succeeded,
and the initial value otherwise. -/
theorem collect_viewAcnc :
    ∀ (jobs : List SyncJob) (st : CollectState) (p : String),
      (successKeys jobs).Nodup →
      viewAcnc ((jobs.foldl collectStep st).byPostcode p)
        = if hasAcncSuccess jobs p = true then acncTotal jobs p
          else viewAcnc (st.byPostcode p) := by
  intro jobs
  induction jobs with
  | nil => intro st p _; simp [hasAcncSuccess]
  | cons j tl ih =>
      intro st p hnd
      rw [List.foldl_cons]
      obtain ⟨pc, outcome⟩ := j
      cases outcome with
      | error e =>
          have hkey : successKeys (⟨pc, .error e⟩ :: tl) = successKeys tl := by
            simp [successKeys, successKey]
          rw [hkey] at hnd
          have hstep : (collectStep st ⟨pc, .error e⟩).byPostcode = st.byPostcode := by
            by_cases hin : pc ∈ st.failed <;> simp [collectStep, hin]
          rw [ih (collectStep st ⟨pc, .error e⟩) p hnd, hstep]
          have hH : hasAcncSuccess (⟨pc, .error e⟩ :: tl) p = hasAcncSuccess tl p := by
            simp [hasAcncSuccess]
          have hT : acncTotal (⟨pc, .error e⟩ :: tl) p = acncTotal tl p := by
            rw [acncTotal_cons]; simp [acncContribution]
          rw [hH, hT]
      | ok recs =>
          cases recs with
          | abnR rs =>
              have hkey : successKeys (⟨pc, .ok (.abnR rs)⟩ :: tl)
                  = (0, pc) :: successKeys tl := by
                simp [successKeys, successKey]
              rw [hkey, List.nodup_cons] at hnd
              have hstep : viewAcnc ((collectStep st ⟨pc, .ok (.abnR rs)⟩).byPostcode p)
                  = viewAcnc (st.byPostcode p) := by
                by_cases hp : p = pc
                · subst hp
                  cases h : st.byPostcode p <;> simp [collectStep, viewAcnc, h]
                · simp [collectStep, hp]
              rw [ih (collectStep st ⟨pc, .ok (.abnR rs)⟩) p hnd.2, hstep]
              have hH : hasAcncSuccess (⟨pc, .ok (.abnR rs)⟩ :: tl) p
                  = hasAcncSuccess tl p := by
                simp [hasAcncSuccess]
              have hT : acncTotal (⟨pc, .ok (.abnR rs)⟩ :: tl) p = acncTotal tl p := by
                rw [acncTotal_cons]; simp [acncContribution]
              rw [hH, hT]
          | acncR rs =>
              have hkey : successKeys (⟨pc, .ok (.acncR rs)⟩ :: tl)
                  = (1, pc) :: successKeys tl := by
                simp [successKeys, successKey]
              rw [hkey, List.nodup_cons] at hnd
              obtain ⟨hnotin, hnd2⟩ := hnd
              by_cases hp : pc = p
              · subst hp
                have hnot : hasAcncSuccess tl pc = false := by
                  cases h : hasAcncSuccess tl pc
                  · rfl
                  · exact absurd ((hasAcncSuccess_iff_mem tl pc).mp h) hnotin
                rw [ih (collectStep st ⟨pc, .ok (.acncR rs)⟩) pc hnd2, hnot]
                have hstep : viewAcnc ((collectStep st ⟨pc, .ok (.acncR rs)⟩).byPostcode pc)
                    = rs.length := by
                  simp [collectStep, viewAcnc]
                rw [if_neg (by simp), hstep]
                have hH : hasAcncSuccess (⟨pc, .ok (.acncR rs)⟩ :: tl) pc = true := by
                  simp [hasAcncSuccess]
                rw [if_pos hH, acncTotal_cons, acncTotal_eq_zero pc tl hnot]
                simp [acncContribution]
              · have hstep : (collectStep st ⟨pc, .ok (.acncR rs)⟩).byPostcode p
                    = st.byPostcode p := by
                  have hp2 : ¬ (p = pc) := fun h => hp h.symm
                  simp [collectStep, hp2]
                rw [ih (collectStep st ⟨pc, .ok (.acncR rs)⟩) p hnd2, hstep]
                have hH : hasAcncSuccess (⟨pc, .ok (.acncR rs)⟩ :: tl) p
                    = hasAcncSuccess tl p := by
                  simp [hasAcncSuccess, hp]
                have hT : acncTotal (⟨pc, .ok (.acncR rs)⟩ :: tl) p = acncTotal tl p := by
                  rw [acncTotal_cons]
                  simp [acncContribution, hp]
                rw [hH, hT]
          | nswR rs =>
              have hkey : successKeys (⟨pc, .ok (.nswR rs)⟩ :: tl)
                  = (2, pc) :: successKeys tl := by
                simp [successKeys, successKey]
              rw [hkey, List.nodup_cons] at hnd
              have hstep : viewAcnc ((collectStep st ⟨pc, .ok (.nswR rs)⟩).byPostcode p)
                  = viewAcnc (st.byPostcode p) := by
                by_cases hp : p = pc
                · subst hp
                  cases h : st.byPostcode p <;> simp [collectStep, viewAcnc, h]
                · simp [collectStep, hp]
              rw [ih (collectStep st ⟨pc, .ok (.nswR rs)⟩) p hnd.2, hstep]
              have hH : hasAcncSuccess (⟨pc, .ok (.nswR rs)⟩ :: tl) p
                  = hasAcncSuccess tl p := by
                simp [hasAcncSuccess]
              have hT : acncTotal (⟨pc, .ok (.nswR rs)⟩ :: tl) p = acncTotal tl p := by
                rw [acncTotal_cons]; simp [acncContribution]
              rw [hH, hT]


/-- With pairwise-distinct success keys, the stored nsw count for `p` after
the collection loop is its nsw total when some nsw job for `p` succeeded,
and the initial value otherwise. -/
theorem collect_viewNsw :
    ∀ (jobs : List SyncJob) (st : CollectState) (p : String),
      (successKeys jobs).Nodup →
      viewNsw ((jobs.foldl collectStep st).byPostcode p)
        = if hasNswSuccess jobs p = true then nswTotal jobs p
          else viewNsw (st.byPostcode p) := by
  intro jobs
  induction jobs with
  | nil => intro st p _; simp [hasNswSuccess]
  | cons j tl ih =>
      intro st p hnd
      rw [List.foldl_cons]
      obtain ⟨pc, outcome⟩ := j
      cases outcome with
      | error e =>
          have hkey : successKeys (⟨pc, .error e⟩ :: tl) = successKeys tl := by
            simp [successKeys, successKey]
          rw [hkey] at hnd
          have hstep : (collectStep st ⟨pc, .error e⟩).byPostcode = st.byPostcode := by
            by_cases hin : pc ∈ st.failed <;> simp [collectStep, hin]
          rw [ih (collectStep st ⟨pc, .error e⟩) p hnd, hstep]
          have hH : hasNswSuccess (⟨pc, .error e⟩ :: tl) p = hasNswSuccess tl p := by
            simp [hasNswSuccess]
          have hT : nswTotal (⟨pc, .error e⟩ :: tl) p = nswTotal tl p := by
            rw [nswTotal_cons]; simp [nswContribution]
          rw [hH, hT]
      | ok recs =>
          cases recs with
          | abnR rs =>
              have hkey : successKeys (⟨pc, .ok (.abnR rs)⟩ :: tl)
                  = (0, pc) :: successKeys tl := by
                simp [successKeys, successKey]
              rw [hkey, List.nodup_cons] at hnd
              have hstep : viewNsw ((collectStep st ⟨pc, .ok (.abnR rs)⟩).byPostcode p)
                  = viewNsw (st.byPostcode p) := by
                by_cases hp : p = pc
                · subst hp
                  cases h : st.byPostcode p <;> simp [collectStep, viewNsw, h]
                · simp [collectStep, hp]
              rw [ih (collectStep st ⟨pc, .ok (.abnR rs)⟩) p hnd.2, hstep]
              have hH : hasNswSuccess (⟨pc, .ok (.abnR rs)⟩ :: tl) p
                  = hasNswSuccess tl p := by
                simp [hasNswSuccess]
              have hT : nswTotal (⟨pc, .ok (.abnR rs)⟩ :: tl) p = nswTotal tl p := by
                rw [nswTotal_cons]; simp [nswContribution]
              rw [hH, hT]
          | acncR rs =>
              have hkey : successKeys (⟨pc, .ok (.acncR rs)⟩ :: tl)
                  = (1, pc) :: successKeys tl := by
                simp [successKeys, successKey]
              rw [hkey, List.nodup_cons] at hnd
              have hstep : viewNsw ((collectStep st ⟨pc, .ok (.acncR rs)⟩).byPostcode p)
                  = viewNsw (st.byPostcode p) := by
                by_cases hp : p = pc
                · subst hp
                  cases h : st.byPostcode p <;> simp [collectStep, viewNsw, h]
                · simp [collectStep, hp]
              rw [ih (collectStep st ⟨pc, .ok (.acncR rs)⟩) p hnd.2, hstep]
              have hH : hasNswSuccess (⟨pc, .ok (.acncR rs)⟩ :: tl) p
                  = hasNswSuccess tl p := by
                simp [hasNswSuccess]
              have hT : nswTotal (⟨pc, .ok (.acncR rs)⟩ :: tl) p = nswTotal tl p := by
                rw [nswTotal_cons]; simp [nswContribution]
              rw [hH, hT]
          | nswR rs =>
              have hkey : successKeys (⟨pc, .ok (.nswR rs)⟩ :: tl)
                  = (2, pc) :: successKeys tl := by
                simp [successKeys, successKey]
              rw [hkey, List.nodup_cons] at hnd
              obtain ⟨hnotin, hnd2⟩ := hnd
              by_cases hp : pc = p
              · subst hp
                have hnot : hasNswSuccess tl pc = false := by
                  cases h : hasNswSuccess tl pc
                  · rfl
                  · exact absurd ((hasNswSuccess_iff_mem tl pc).mp h) hnotin
                rw [ih (collectStep st ⟨pc, .ok (.nswR rs)⟩) pc hnd2, hnot]
                have hstep : viewNsw ((collectStep st ⟨pc, .ok (.nswR rs)⟩).byPostcode pc)
                    = rs.length := by
                  simp [collectStep, viewNsw]
                rw [if_neg (by simp), hstep]
                have hH : hasNswSuccess (⟨pc, .ok (.nswR rs)⟩ :: tl) pc = true := by
                  simp [hasNswSuccess]
                rw [if_pos hH, nswTotal_cons, nswTotal_eq_zero pc tl hnot]
                simp [nswContribution]
              · have hstep : (collectStep st ⟨pc, .ok (.nswR rs)⟩).byPostcode p
                    = st.byPostcode p := by
                  have hp2 : ¬ (p = pc) := fun h => hp h.symm
                  simp [collectStep, hp2]
                rw [ih (collectStep st ⟨pc, .ok (.nswR rs)⟩) p hnd2, hstep]
                have hH : hasNswSuccess (⟨pc, .ok (.nswR rs)⟩ :: tl) p
                    = hasNswSuccess tl p := by
                  simp [hasNswSuccess, hp]
                have hT : nswTotal (⟨pc, .ok (.nswR rs)⟩ :: tl) p = nswTotal tl p := by
                  rw [nswTotal_cons]
                  simp [nswContribution, hp]
                rw [hH, hT]


/-- Every `by_postcode` entry written by the collection loop keeps
`total = abn + acnc + nsw`. -/
theorem collect_total_inv :
    ∀ (jobs : List SyncJob) (st : CollectState),
      (∀ p c, st.byPostcode p = some c → c.total = c.abn + c.acnc + c.nsw) →
      ∀ p c, (jobs.foldl collectStep st).byPostcode p = some c →
        c.total = c.abn + c.acnc + c.nsw := by
  intro jobs
  induction jobs with
  | nil => intro st h; exact h
  | cons j tl ih =>
      intro st h
      rw [List.foldl_cons]
      refine ih (collectStep st j) ?_
      intro p c hpc
      obtain ⟨pc, outcome⟩ := j
      cases outcome with
      | error e =>
          have hby : (collectStep st ⟨pc, .error e⟩).byPostcode = st.byPostcode := by
            by_cases hin : pc ∈ st.failed <;> simp [collectStep, hin]
          rw [hby] at hpc
          exact h p c hpc
      | ok recs =>
          cases recs with
          | abnR rs =>
              simp only [collectStep] at hpc
              by_cases hp : p = pc
              · rw [if_pos hp, Option.some.injEq] at hpc
                subst hpc
                rfl
              · rw [if_neg hp] at hpc
                exact h p c hpc
          | acncR rs =>
              simp only [collectStep] at hpc
              by_cases hp : p = pc
              · rw [if_pos hp, Option.some.injEq] at hpc
                subst hpc
                rfl
              · rw [if_neg hp] at hpc
                exact h p c hpc
          | nswR rs =>
              simp only [collectStep] at hpc
              by_cases hp : p = pc
              · rw [if_pos hp, Option.some.injEq] at hpc
                subst hpc
                rfl
              · rw [if_neg hp] at hpc
                exact h p c hpc

/-- C3: over any completion order with one job per (source, postcode): a
postcode is in `failed_postcodes` exactly when one of its jobs failed; a
postcode counts as processed exactly when its combined record total across
the three sources is positive (so `processed_postcodes` counts exactly the
postcodes with a positive combined total); and in scenario C — two postcodes,
three sources, exactly the acnc job of postcode 2000 failing — postcode 2000
is listed failed, postcode 2010's stats are the untouched counts of its own
jobs, and the response still carries the reconciliation of all collected
records. -/
theorem sync_failed_and_processed_characterization :
    ∀ jobs : List SyncJob,
      (successKeys jobs).Nodup →
      (∀ p, p ∈ (collectResults jobs).failed ↔
          ∃ j ∈ jobs, j.postcode = p ∧ jobFailed j = true) ∧
      (∀ p, postcodeProcessed (collectResults jobs) p = true ↔
          0 < combinedTotal jobs p) ∧
      (∀ postcodes : List String,
          processedPostcodes postcodes (collectResults jobs)
            = (postcodes.filter fun p => decide (0 < combinedTotal jobs p)).length) ∧
      ((collectResults scenarioJobs).failed = ["2000"] ∧
        (collectResults scenarioJobs).byPostcode "2000" = some ⟨1, 0, 0, 1⟩ ∧
        (collectResults scenarioJobs).byPostcode "2010" = some ⟨0, 1, 1, 2⟩ ∧
        sync_all_sources "nsw" none (some ["2010", "2000"]) scenarioJobs "t" =
          .success
            { state := "NSW"
              processed_postcodes := 2
              failed_postcodes := ["2000"]
              merge_stats := (mergeOrganizationRecords [abnRec1] [acncRec1X] [nswRecX] "t").2
              merged_records := (mergeOrganizationRecords [abnRec1] [acncRec1X] [nswRecX] "t").1 }) := by
  intro jobs hnd
  have hA' : ∀ p, viewAbn ((collectResults jobs).byPostcode p) = abnTotal jobs p := by
    intro p
    have hA := collect_viewAbn jobs {} p hnd
    by_cases h : hasAbnSuccess jobs p = true
    · rw [collectResults, hA, if_pos h]
    · rw [collectResults, hA, if_neg h,
        abnTotal_eq_zero p jobs (Bool.not_eq_true _ ▸ h)]
      rfl
  have hC' : ∀ p, viewAcnc ((collectResults jobs).byPostcode p) = acncTotal jobs p := by
    intro p
    have hC := collect_viewAcnc jobs {} p hnd
    by_cases h : hasAcncSuccess jobs p = true
    · rw [collectResults, hC, if_pos h]
    · rw [collectResults, hC, if_neg h,
        acncTotal_eq_zero p jobs (Bool.not_eq_true _ ▸ h)]
      rfl
  have hN' : ∀ p, viewNsw ((collectResults jobs).byPostcode p) = nswTotal jobs p := by
    intro p
    have hN := collect_viewNsw jobs {} p hnd
    by_cases h : hasNswSuccess jobs p = true
    · rw [collectResults, hN, if_pos h]
    · rw [collectResults, hN, if_neg h,
        nswTotal_eq_zero p jobs (Bool.not_eq_true _ ▸ h)]
      rfl
  have hview : ∀ p, viewTotal ((collectResults jobs).byPostcode p)
      = combinedTotal jobs p := by
    intro p
    cases hbp : (collectResults jobs).byPostcode p with
    | none =>
        have h1 := hA' p
        have h2 := hC' p
        have h3 := hN' p
        rw [hbp] at h1 h2 h3
        rw [combinedTotal, ← h1, ← h2, ← h3]
        rfl
    | some c =>
        have htot := collect_total_inv jobs {} (by intro q d hd; simp at hd) p c hbp
        have h1 := hA' p
        have h2 := hC' p
        have h3 := hN' p
        rw [hbp] at h1 h2 h3
        rw [viewTotal, htot, combinedTotal, ← h1, ← h2, ← h3]
        rfl
  have hpoint : ∀ p, postcodeProcessed (collectResults jobs) p
      = decide (0 < combinedTotal jobs p) := by
    intro p
    have hv := hview p
    cases hbp : (collectResults jobs).byPostcode p with
    | none =>
        rw [hbp] at hv
        simp [postcodeProcessed, hbp, ← hv, viewTotal]
    | some c =>
        rw [hbp] at hv
        simp [postcodeProcessed, hbp, ← hv, viewTotal]
  refine ⟨?_, ?_, ?_, by decide, by decide, by decide, by decide⟩
  · intro p
    have := collect_failed_mem jobs {} p
    rw [collectResults]
    simpa using this
  · intro p
    rw [hpoint p]
    simp
  · intro postcodes
    rw [processedPostcodes]
    congr 1
    exact List.filter_congr fun p _ => hpoint p

/-- C3 witness: the characterization applied to the concrete scenario-C
batch. -/
theorem sync_failed_and_processed_characterization_witness :
    ("2000" ∈ (collectResults scenarioJobs).failed ↔
      ∃ j ∈ scenarioJobs, j.postcode = "2000" ∧ jobFailed j = true) ∧
    (postcodeProcessed (collectResults scenarioJobs) "2010" = true ↔
      0 < combinedTotal scenarioJobs "2010") :=
  ⟨(sync_failed_and_processed_characterization scenarioJobs (by decide)).1 "2000",
   (sync_failed_and_processed_characterization scenarioJobs (by decide)).2.1 "2010"⟩

end OrgsEtl
